import Mathlib

set_option maxHeartbeats 1000000

/-!
Verification of the utility-helper repository (packages `conv`, `file`,
`database/sqlitedb`, `database/mysqldb`) against its natural-language
specification.  Go functions are shallowly embedded as Lean definitions:
Go byte strings are modelled as `List Nat` (each element `< 256`) where byte
content matters, and as Lean `String` where only ASCII identifiers are
involved; fallible Go functions return pairs with an `Option`/`Except` error
component; machine integers are modelled as `Nat` with explicit masking.
-/

/-- Go `error` values are modelled by their message strings. -/
def GoError := String

deriving instance DecidableEq for GoError

deriving instance DecidableEq for Except

namespace file

/-- Go `strings.TrimRight(s, "/")`: remove all trailing slash characters. -/
def trimRightSlash (s : String) : String :=
  String.mk (s.data.reverse.dropWhile (fun c => c = '/')).reverse

/-- Go `strings.TrimLeft(s, ".")`: remove all leading dot characters. -/
def trimLeftDot (s : String) : String :=
  String.mk (s.data.dropWhile (fun c => c = '.'))

/-- Helper for `goFilepathExt`: the input is the path reversed, `acc` the
characters already scanned (in forward order).  Mirrors Go `filepath.Ext`,
which scans backwards until a path separator, returning the suffix starting
at the first dot found (or empty). -/
def extScan (acc : List Char) : List Char → List Char
  | [] => []
  | c :: rest =>
    if c = '/' then []
    else if c = '.' then c :: acc
    else extScan (c :: acc) rest

/-- Go `filepath.Ext` on a Unix path: the suffix beginning at the final dot
in the final slash-separated element; empty if there is no dot. -/
def goFilepathExt (s : String) : String :=
  String.mk (extScan [] s.data.reverse)

/-- Go `filepath.Base` on a Unix path: empty path gives ".", trailing
slashes are stripped, an all-slash path gives "/", otherwise the last
element. -/
def goFilepathBase (s : String) : String :=
  if s = "" then "."
  else
    let t := s.data.reverse.dropWhile (fun c => c = '/')
    if t = [] then "/"
    else String.mk (t.takeWhile (fun c => c ≠ '/')).reverse

/-- State of Go `filepath.Clean`'s output buffer: the written characters,
whether the path is rooted, and the index up to which ".." elements may not
backtrack. -/
structure CleanSt where
  out : List Char
  rooted : Bool
  dotdot : Nat

/-- Mirrors the backtracking loop inside Go `filepath.Clean`'s ".." case:
`out.w--; for out.w > dotdot && out.index(out.w) != '/' { out.w-- }`.
`w` is the candidate new length; the function returns the final length. -/
def popW (out : List Char) (dd w : Nat) : Nat :=
  if h : dd < w ∧ out.getD w ' ' ≠ '/' then popW out dd (w - 1) else w
termination_by w
decreasing_by
  have : 0 < w := Nat.lt_of_le_of_lt (Nat.zero_le dd) h.1
  omega

/-- The ".." case of Go `filepath.Clean`: backtrack over the previous
element when possible, append a literal ".." when not rooted, else drop. -/
def applyDotDot (st : CleanSt) : CleanSt :=
  if st.dotdot < st.out.length then
    { st with out := st.out.take (popW st.out st.dotdot (st.out.length - 1)) }
  else if !st.rooted then
    let out := if st.out.length > 0 then st.out ++ ['/'] else st.out
    let out := out ++ ['.', '.']
    { st with out := out, dotdot := out.length }
  else st

/-- The default case of Go `filepath.Clean`'s loop: emit a separator when
needed, then copy the next element (which starts with the non-slash
character `c`). -/
def appendSeg (st : CleanSt) (seg : List Char) : CleanSt :=
  let out :=
    if (st.rooted ∧ st.out.length ≠ 1) ∨ (st.rooted = false ∧ st.out.length ≠ 0) then
      st.out ++ ['/']
    else st.out
  { st with out := out ++ seg }

/-- The main loop of Go `filepath.Clean` (Unix separators): skip slashes,
skip "." elements, process ".." elements via `applyDotDot`, copy other
elements. -/
def cleanLoop (l : List Char) (st : CleanSt) : CleanSt :=
  match l with
  | [] => st
  | '/' :: rest => cleanLoop rest st
  | ['.'] => st
  | '.' :: '/' :: rest => cleanLoop ('/' :: rest) st
  | '.' :: '.' :: [] => applyDotDot st
  | '.' :: '.' :: '/' :: rest => cleanLoop ('/' :: rest) (applyDotDot st)
  | c :: rest =>
    let seg := c :: rest.takeWhile (fun ch => ch ≠ '/')
    cleanLoop (rest.dropWhile (fun ch => ch ≠ '/')) (appendSeg st seg)
termination_by l.length
decreasing_by
  all_goals simp only [List.length_cons]
  all_goals first
    | omega
    | exact Nat.lt_succ_of_le (List.Sublist.length_le (List.dropWhile_sublist _))

/-- Go `filepath.Clean` on a Unix path. -/
def goFilepathClean (s : String) : String :=
  if s = "" then "."
  else
    let rooted := s.data.head? = some '/'
    let st0 : CleanSt := if rooted then ⟨['/'], true, 1⟩ else ⟨[], false, 0⟩
    let stF := cleanLoop (if rooted then s.data.drop 1 else s.data) st0
    if stF.out.length = 0 then "." else String.mk stF.out

/-- Go `filepath.Dir` on a Unix path: everything up to and including the
final slash, run through `Clean` ("." when there is no slash). -/
def goFilepathDir (s : String) : String :=
  goFilepathClean (String.mk (s.data.reverse.dropWhile (fun c => c ≠ '/')).reverse)

/-- Go `filepath.Split`: the prefix up to and including the final slash, and
the remainder; no cleaning. -/
def goFilepathSplit (s : String) : String × String :=
  (String.mk (s.data.reverse.dropWhile (fun c => c ≠ '/')).reverse,
   String.mk (s.data.reverse.takeWhile (fun c => c ≠ '/')).reverse)

/-!
The variadic `file` helpers fall back to the *calling* source location
(`runtime.Caller(1)`) when invoked without a nonempty argument.  The
embedding makes that implicit input explicit: each helper takes first the
path that `runtime.Caller(1)` would report (parameter `caller`), then the
Go argument (empty string = Go's "no argument / blank argument" case).
`filepath.FromSlash` is the identity on Unix and is dropped.
-/

/-- `file.Path`: directory of the argument (or of the caller's source file)
with a trailing slash. -/
def Path (caller arg : String) : String :=
  let filePath := if arg ≠ "" then arg else caller
  if goFilepathExt filePath ≠ "" then
    trimRightSlash (goFilepathDir filePath) ++ "/"
  else
    trimRightSlash filePath ++ "/"

/-- `file.FilePathJoin`: join a directory and a filename with exactly one
slash. -/
def FilePathJoin (path filename : String) : String :=
  trimRightSlash path ++ "/" ++ filename

/-- `file.FilePathBase`: the path minus its extension, with trailing slashes
removed. -/
def FilePathBase (caller arg : String) : String :=
  let filePath := if arg ≠ "" then arg else caller
  let base := String.mk (filePath.data.take (filePath.data.length - (goFilepathExt filePath).data.length))
  trimRightSlash base

/-- `file.FilenameBase`: the last path element minus its extension. -/
def FilenameBase (caller arg : String) : String :=
  let filePath := if arg ≠ "" then arg else caller
  let base := goFilepathBase filePath
  String.mk (base.data.take (base.data.length - (goFilepathExt base).data.length))

/-- `file.Filename`: empty when the path ends in a slash, else the last path
element.  (The Go code indexes the final byte and would panic on a fully
empty path; every use in this development passes a nonempty path.) -/
def Filename (caller arg : String) : String :=
  let filePath := if arg ≠ "" then arg else caller
  match filePath.data.getLast? with
  | some '/' => ""
  | _ => goFilepathBase filePath

/-- `file.FilenameExt`: the extension of the path without its leading
dot(s). -/
def FilenameExt (caller arg : String) : String :=
  let filePath := if arg ≠ "" then arg else caller
  trimLeftDot (goFilepathExt filePath)

end file

/-- Abstract handle produced by Go `sql.Open`; the embedding never inspects
it. -/
structure DBHandle where
  id : Nat
deriving DecidableEq

namespace sqlitedb

/-- The `sqlitedb.SQLiteDBStruct` connection configuration.  The `DB` field
is `none` exactly when the Go field holds a nil pointer (never opened, or
cleared by `Close`). -/
structure SQLiteDBStruct where
  FilePath : String
  Database : String
  DatabaseExt : String
  AutoCreate : Bool
  DB : Option DBHandle
deriving DecidableEq

/-- The `NotFound` message `fmt.Errorf("database file %q does not exists ", filePath)`
(with `%q` rendered as plain double quotes around the path). -/
def notFoundMsg (filePath : String) : GoError :=
  "database file \"" ++ filePath ++ "\" does not exists "

/-- The normalization phase of `Connect` (source lines up to the three field
assignments): computes the final `(FilePath, Database, DatabaseExt)` triple.
The Go code mutates three local variables; the embedding computes the same
values branch by branch.  Implicit inputs are explicit parameters:
`callerPath` is what `runtime.Caller(1)` reports for the script calling
`Connect` (`none` when the caller's location cannot be resolved, in which
case Go yields an empty file string and a false flag that the code
discards); `selfPath` is the source path of `sqlitedb.go` itself, which the
`file` helpers fall back to when handed an empty path. -/
def connectNorm (callerPath : Option String) (selfPath : String)
    (conn : SQLiteDBStruct) : String × String × String :=
  if conn.Database ≠ "" then
    let databaseExt :=
      if conn.DatabaseExt = "" then file.FilenameExt selfPath conn.Database else conn.DatabaseExt
    let pair : String × String :=
      if databaseExt ≠ "" then (file.FilenameBase selfPath conn.Database, databaseExt)
      else (conn.Database, "db")
    let filePath := if conn.FilePath = "" then file.Path selfPath "" else conn.FilePath
    (file.FilePathJoin filePath (pair.1 ++ "." ++ pair.2), pair.1, pair.2)
  else
    let filePath :=
      if conn.FilePath = "" then
        file.FilePathBase selfPath (callerPath.getD "") ++ ".db"
      else conn.FilePath
    let database := file.Filename selfPath filePath
    let pair : String × String :=
      if database ≠ "" then
        let databaseExt :=
          if conn.DatabaseExt = "" then file.FilenameExt selfPath database else conn.DatabaseExt
        if databaseExt ≠ "" then (file.FilenameBase selfPath database, databaseExt)
        else (database, "db")
      else (database, conn.DatabaseExt)
    (filePath, pair.1, pair.2)

/-- `sqlitedb.SQLiteDBStruct.Connect`: normalization via `connectNorm`,
field assignment, the NotFound check, then `sql.Open`.  `fileExists` is the
file-system predicate behind `file.FilePathExists`; the final `sql.Open`
call with the registered "sqlite3" driver never fails (it validates nothing
and performs no I/O), so on reaching it the new handle is installed and no
error is returned. -/
def Connect (callerPath : Option String) (selfPath : String)
    (fileExists : String → Bool) (newHandle : DBHandle)
    (conn : SQLiteDBStruct) : SQLiteDBStruct × Option GoError :=
  let norm := connectNorm callerPath selfPath conn
  let conn := { conn with FilePath := norm.1, Database := norm.2.1, DatabaseExt := norm.2.2 }
  if ¬conn.AutoCreate ∧ ¬fileExists norm.1 then
    (conn, some (notFoundMsg norm.1))
  else
    ({ conn with DB := some newHandle }, none)

end sqlitedb

namespace mysqldb

/-- Character class `[_A-Za-z]` of the first Go regular expression used by
`CheckTableName` (`^[_A-Za-z]+`). -/
def isStartChar (c : Char) : Bool :=
  c == '_' || (decide ('A' ≤ c) && decide (c ≤ 'Z')) || (decide ('a' ≤ c) && decide (c ≤ 'z'))

/-- Character class `[_A-Za-z0-9]` of the second Go regular expression used by
`CheckTableName` (`^[_A-Za-z0-9]*$`). -/
def isNameChar (c : Char) : Bool :=
  isStartChar c || (decide ('0' ≤ c) && decide (c ≤ '9'))

/-- Semantics of Go `regexp.MatchString("^[_A-Za-z]+", s)`: the pattern is
anchored at the start and requires at least one class character, so a match
exists iff the string is nonempty and its first character is in the class.
The pattern is a valid constant, so `MatchString` never returns an error. -/
def matchStartAnchored (s : String) : Bool :=
  match s.data with
  | [] => false
  | c :: _ => isStartChar c

/-- Semantics of Go `regexp.MatchString("^[_A-Za-z0-9]*$", s)`: anchored at
both ends, so a match exists iff every character of the string is in the
class (the empty string matches).  The pattern is a valid constant, so
`MatchString` never returns an error. -/
def matchWholeAnchored (s : String) : Bool :=
  s.data.all isNameChar

/-- `mysqldb.CheckTableName`: first regexp must match (else false), then the
result is the second regexp's match result. -/
def CheckTableName (tableName : String) : Bool :=
  if !matchStartAnchored tableName then
    false
  else
    matchWholeAnchored tableName

/-- `mysqldb.CheckDatabaseName` just delegates to `CheckTableName`. -/
def CheckDatabaseName (databaseName : String) : Bool :=
  CheckTableName databaseName

end mysqldb

/-- Outcome of calling a Go method: a normal return carrying the Go result
tuple, or a run-time panic from invoking a method on a nil `*sql.DB`
pointer (which Go surfaces as a nil-pointer-dereference panic, not as a
returned error). -/
inductive GoCall (α : Type) where
  | ok (val : α)
  | nilPanic
deriving DecidableEq

/-- Go `strings.TrimSpace`: strips the Unicode white-space characters; for
the Latin-1 range these are space, tab, newline, vertical tab, form feed,
carriage return, NEL and NBSP. -/
def goIsSpace (c : Char) : Bool :=
  c == ' ' || c == '\t' || c == '\n' || (decide (c.toNat = 11)) || (decide (c.toNat = 12)) ||
  c == '\r' || (decide (c.toNat = 133)) || (decide (c.toNat = 160))

def goTrimSpace (s : String) : String :=
  String.mk (((s.data.dropWhile goIsSpace).reverse.dropWhile goIsSpace).reverse)

/-- Go `strings.ToUpper` restricted to ASCII (every declared column type
name the driver reports is ASCII). -/
def goToUpper (s : String) : String :=
  String.mk (s.data.map (fun c =>
    if 'a' ≤ c ∧ c ≤ 'z' then Char.ofNat (c.toNat - 32) else c))

namespace sqlitedb

/-- A dynamically-typed value as delivered into an `any` scan target by the
SQLite driver.  Integer payloads are the mathematical values of the machine
integers; float payloads are modelled as rationals (every float32 value is
exactly representable as a float64, so the Go conversion `float64(x)` is the
identity embedding; NaN and infinities are not modelled, as nothing here
computes with them).  `gUnset` models a scan target that `rows.Scan` left
untouched (it still holds the `*any` self-pointer set up before the call). -/
inductive GoValue where
  | gInt8 (n : Int)
  | gInt16 (n : Int)
  | gInt32 (n : Int)
  | gInt64 (n : Int)
  | gUint (n : Nat)
  | gUint8 (n : Nat)
  | gUint16 (n : Nat)
  | gUint32 (n : Nat)
  | gUint64 (n : Nat)
  | gFloat32 (q : ℚ)
  | gFloat64 (q : ℚ)
  | gInt (n : Int)
  | gBytes (bs : List Nat)
  | gString (s : String)
  | gBool (b : Bool)
  | gNull
  | gUnset
deriving DecidableEq

/-- Go's `int(x)` conversion from a 64-bit unsigned value: reduce modulo
2^64 and reinterpret as a signed 64-bit value. -/
def uint64ToInt (n : Nat) : Int :=
  if n % 2 ^ 64 < 2 ^ 63 then (n % 2 ^ 64 : Int) else (n % 2 ^ 64 : Int) - 2 ^ 64

/-- The type-narrowing switch inside `sqlitedb.ScanRows`: every fixed-width
integer kind becomes a generic `int`, `float32` becomes `float64`, anything
else passes through unchanged. -/
def narrowValue : GoValue → GoValue
  | .gInt8 n => .gInt n
  | .gInt16 n => .gInt n
  | .gInt32 n => .gInt n
  | .gInt64 n => .gInt n
  | .gUint n => .gInt (uint64ToInt n)
  | .gUint8 n => .gInt n
  | .gUint16 n => .gInt n
  | .gUint32 n => .gInt n
  | .gUint64 n => .gInt (uint64ToInt n)
  | .gFloat32 q => .gFloat64 q
  | v => v

/-- One iteration of the `sqlRows.Next()` loop: `scanErr` is the error value
returned by `sqlRows.Scan` (the source discards it), `values` the contents
of the scan targets after the call (one per column by construction in Go:
the scans slice is allocated with the column count). -/
structure ScanRow where
  scanErr : Option GoError
  values : List GoValue
deriving DecidableEq

/-- A live `*sql.Rows` cursor, reduced to what the scanned code observes:
the result of `Columns()` and the successive rows delivered by `Next()`
(a driver iteration error simply ends the sequence — the code never checks
`rows.Err()`). -/
structure Cursor where
  columnsRes : Except GoError (List String)
  rows : List ScanRow

/-- The record built for one row: `record[columns[index]] = value` over the
scan targets in order, after narrowing.  The Go map is modelled as the
association list of assignments in execution order (for duplicate column
names the later assignment wins, as in a Go map). -/
def buildRecord (columns : List String) (values : List GoValue) : List (String × GoValue) :=
  (columns.zip values).map (fun p => (p.1, narrowValue p.2))

/-- `sqlitedb.SQLiteDBStruct.ScanRows`: on a `Columns()` failure returns no
records and that error; otherwise scans every row.  The error value of the
per-row `sqlRows.Scan(scans...)` call is discarded by the source (the call
result is not assigned), so a failing row neither stops the loop nor
surfaces an error, and the loop's records are exactly one per row. -/
def ScanRows (cur : Cursor) : List (List (String × GoValue)) × Option GoError :=
  match cur.columnsRes with
  | .error e => ([], some e)
  | .ok columns => (cur.rows.map (fun r => buildRecord columns r.values), none)

/-- `sqlitedb.SQLiteDBStruct.Exec`: with a nil handle, a normal return of
`(nil, errors.New("not connected"))`; otherwise the driver's answer for the
trimmed query, supplied by the oracle `drvExec`. -/
def Exec (drvExec : DBHandle → String → Option Nat × Option GoError)
    (conn : SQLiteDBStruct) (query : String) : GoCall (Option Nat × Option GoError) :=
  match conn.DB with
  | none => .ok (none, some "not connected")
  | some h => .ok (drvExec h (goTrimSpace query))

/-- `sqlitedb.SQLiteDBStruct.Query`: same guard as `Exec`; the oracle
`drvQuery` is the driver's behaviour, returning an error or a cursor. -/
def Query (drvQuery : DBHandle → String → Except GoError Cursor)
    (conn : SQLiteDBStruct) (query : String) : GoCall (Except GoError Cursor) :=
  match conn.DB with
  | none => .ok (.error "not connected")
  | some h => .ok (drvQuery h (goTrimSpace query))

/-- `sqlitedb.SQLiteDBStruct.QueryRow` has no nil check: `conn.DB.QueryRow`
on a nil `*sql.DB` dereferences the nil pointer and panics. -/
def QueryRow (drvRow : DBHandle → String → Nat)
    (conn : SQLiteDBStruct) (query : String) : GoCall Nat :=
  match conn.DB with
  | none => .nilPanic
  | some h => .ok (drvRow h (goTrimSpace query))

/-- `sqlitedb.SQLiteDBStruct.QueryRecords` likewise calls `conn.DB.Query`
without a nil check (panic on a nil handle); a query error returns
`(nil, err)`; otherwise the rows are scanned by `ScanRows`. -/
def QueryRecords (drvQuery : DBHandle → String → Except GoError Cursor)
    (conn : SQLiteDBStruct) (query : String) :
    GoCall (List (List (String × GoValue)) × Option GoError) :=
  match conn.DB with
  | none => .nilPanic
  | some h =>
    match drvQuery h (goTrimSpace query) with
    | .error e => .ok ([], some e)
    | .ok cur => .ok (ScanRows cur)

/-- The scanning loop of `GetSQLTableInfo`: scan each row into a
`(sequence, name, type)` triple, `break`ing at the first scan error and
returning the rows accumulated so far, the name→type map (later duplicates
overwrite), and the error. -/
def scanInfoRows :
    List (Except GoError (Nat × String × String)) →
    List (Nat × String × String) × List (String × String) × Option GoError
  | [] => ([], [], none)
  | .error e :: _ => ([], [], some e)
  | .ok row :: rest =>
    let r := scanInfoRows rest
    (row :: r.1, (row.2.1, row.2.2) :: r.2.1, r.2.2)

/-- `sqlitedb.SQLiteDBStruct.GetSQLTableInfo`: nil-handle and blank-table
guards, then the `PRAGMA_TABLE_INFO` query (oracle `drvInfo`, a function of
the handle and the table name); a query error yields empty results plus the
error, otherwise the rows are scanned with break-on-error. -/
def GetSQLTableInfo
    (drvInfo : DBHandle → String → Except GoError (List (Except GoError (Nat × String × String))))
    (conn : SQLiteDBStruct) (table : String) :
    GoCall (List (Nat × String × String) × List (String × String) × Option GoError) :=
  match conn.DB with
  | none => .ok ([], [], some "not connected")
  | some h =>
    if table = "" then .ok ([], [], some "table cannot be blank")
    else
      match drvInfo h table with
      | .error e => .ok ([], [], some e)
      | .ok rows => .ok (scanInfoRows rows)

/-- The shared `GetRowsInfo` loop: number the cursor's column metadata
`(index+1, name, declared type)` and build the name→type map. -/
def rowsInfo (colTypes : List (String × String)) :
    List (Nat × String × String) × List (String × String) :=
  ((colTypes.enum.map fun p => (p.1 + 1, p.2.1, p.2.2)),
   colTypes)

/-- `sqlitedb.SQLiteDBStruct.GetTableInfo`: nil-handle and blank-table
guards, then a `SELECT * ... LIMIT 1` probe (oracle `drvProbe` giving the
cursor metadata `ColumnTypes()` as `(name, declared type)` pairs or an
error), then `GetRowsInfo` on the cursor. -/
def GetTableInfo
    (drvProbe : DBHandle → String → Except GoError (Except GoError (List (String × String))))
    (conn : SQLiteDBStruct) (table : String) :
    GoCall (List (Nat × String × String) × List (String × String) × Option GoError) :=
  match conn.DB with
  | none => .ok ([], [], some "not connected")
  | some h =>
    if table = "" then .ok ([], [], some "table cannot be blank")
    else
      match drvProbe h table with
      | .error e => .ok ([], [], some e)
      | .ok (.error e) => .ok ([], [], some e)
      | .ok (.ok colTypes) =>
        let info := rowsInfo colTypes
        .ok (info.1, info.2, none)

end sqlitedb

/-- A Go string literal as the byte sequence it denotes (all uses here are
ASCII). -/
def strBytes (s : String) : List Nat :=
  s.data.map Char.toNat

namespace system

/-- Modelled from the spec: the `system` package (its `ConvertToInt`,
`ConvertToFloat`, `ConvertToBytes`, `ConvertToBool` helpers) is not under
src/; the spec says only that the uppercased declared type selects a
conversion of the string form of the driver value into an integer /
floating-point / raw-byte / boolean value.  The models below convert the
byte string accordingly (decimal parse for numbers, with 0 for unparsable
input; identity on bytes; the usual Go boolean literals for `ParseBool`). -/
def isDigitByte (b : Nat) : Bool :=
  decide (48 ≤ b) && decide (b ≤ 57)

def digitsToNat (l : List Nat) : Nat :=
  l.foldl (fun acc b => acc * 10 + (b - 48)) 0

/-- Modelled from the spec: `system.ConvertToInt` (string form → integer). -/
def ConvertToInt (s : List Nat) : Int :=
  match s with
  | 45 :: rest => if rest ≠ [] ∧ rest.all isDigitByte then -(digitsToNat rest : Int) else 0
  | _ => if s ≠ [] ∧ s.all isDigitByte then (digitsToNat s : Int) else 0

/-- Modelled from the spec: `system.ConvertToFloat` (string form →
floating-point value, represented as a rational). -/
def ConvertToFloat (s : List Nat) : ℚ :=
  let signed : Bool × List Nat := match s with | 45 :: rest => (true, rest) | _ => (false, s)
  let ip := signed.2.takeWhile (fun b => b ≠ 46)
  let rest := signed.2.dropWhile (fun b => b ≠ 46)
  let fp := rest.drop 1
  if ip.all isDigitByte ∧ fp.all isDigitByte ∧ signed.2 ≠ [] then
    let mag : ℚ := (digitsToNat ip : ℚ) + (digitsToNat fp : ℚ) / ((10 : ℚ) ^ fp.length)
    if signed.1 then -mag else mag
  else 0

/-- Modelled from the spec: `system.ConvertToBytes` (string form → raw byte
sequence; `[]byte(s)` is the identity on the underlying bytes). -/
def ConvertToBytes (s : List Nat) : List Nat :=
  s

/-- Modelled from the spec: `system.ConvertToBool` (string form → boolean,
with Go `strconv.ParseBool`'s true literals). -/
def ConvertToBool (s : List Nat) : Bool :=
  decide (s = strBytes "1") || decide (s = strBytes "t") || decide (s = strBytes "T") ||
  decide (s = strBytes "true") || decide (s = strBytes "TRUE") || decide (s = strBytes "True")

end system

namespace mysqldb

/-- The `mysqldb.MySQLdbStruct` connection configuration. -/
structure MySQLdbStruct where
  Host : String
  User : String
  Password : String
  AllowNativePasswords : Bool
  Database : String
  AutoCreate : Bool
  DB : Option DBHandle
deriving DecidableEq

/-- The environment-overlay phase at the top of `mysqldb.Connect`: when the
variadic `checkENV` flag list is non-nil and its first element is true, the
configuration is overlaid from the named environment variables (`env` is
`os.Getenv`, returning "" for unset variables); otherwise the configuration
is untouched and no variable is read. -/
def connectCheckENV (checkENV : List Bool) (env : String → String)
    (conn : MySQLdbStruct) : MySQLdbStruct :=
  match checkENV with
  | [] => conn
  | b :: _ =>
    if b then
      { conn with
        Database := if conn.Database = "" then env "MYSQL_DATABASE" else conn.Database
        Host := env "MYSQL_HOST"
        User := env "MYSQL_USER"
        Password := env "MYSQL_PWD"
        AllowNativePasswords := env "MYSQL_ALLOW_NATIVE_PASSWORDS" == "true" }
    else conn

/-- Driver behaviour consumed by `mysqldb.Connect` after the handle opens:
the result of `Ping` and of each `Exec`ed statement.  (`sql.Open` itself
only parses the DSN that `mysql.Config.FormatDSN` produced, so it does not
fail and performs no I/O.) -/
structure MySQLDriver where
  pingErr : Option GoError
  execErr : String → Option GoError

/-- `mysqldb.MySQLdbStruct.Connect`: environment overlay, database-name
validation, open, ping, conditional `CREATE DATABASE IF NOT EXISTS`, then
`USE`; the first failing stage's error is returned and the handle stays in
whatever state it reached. -/
def Connect (checkENV : List Bool) (env : String → String) (drv : MySQLDriver)
    (newHandle : DBHandle) (conn : MySQLdbStruct) : MySQLdbStruct × Option GoError :=
  let conn := connectCheckENV checkENV env conn
  if conn.Database ≠ "" ∧ ¬CheckDatabaseName conn.Database then
    (conn, some "invalid database name")
  else
    let conn := { conn with DB := some newHandle }
    match drv.pingErr with
    | some e => (conn, some e)
    | none =>
      if conn.Database ≠ "" then
        match (if conn.AutoCreate then
                 drv.execErr ("CREATE DATABASE IF NOT EXISTS " ++ conn.Database ++ ";")
               else none) with
        | some e => (conn, some e)
        | none => (conn, drv.execErr ("USE " ++ conn.Database ++ ";"))
      else (conn, none)

/-- A value produced per result row and column by the client-server scan:
the dynamic type is decided by the declared-type classification table. -/
inductive MyValue where
  | vInt (n : Int)
  | vFloat (q : ℚ)
  | vBytes (bs : List Nat)
  | vBool (b : Bool)
  | vString (bs : List Nat)
deriving DecidableEq

/-- The integer-family cases of the `switch Type` statement in
`mysqldb.ScanRows`. -/
def intFamilyTypes : List String :=
  ["BIGINT", "BIT", "BIT VARYING", "INT", "INTEGER", "MEDIUMINT", "SERIAL",
   "SMALLINT", "SMALLSERIAL", "TINYINT"]

/-- The decimal/float-family cases of the switch. -/
def floatFamilyTypes : List String :=
  ["DEC", "DECIMAL", "DOUBLE", "DOUBLE PRECISION", "FIXED", "FLOAT",
   "NUMERIC", "REAL"]

/-- The binary/blob-family cases of the switch. -/
def bytesFamilyTypes : List String :=
  ["BIGSERIAL", "BINARY", "BLOB", "BYTE", "BYTEA", "LONGBLOB", "TINYBLOB",
   "VARBINARY"]

/-- The boolean-family cases of the switch. -/
def boolFamilyTypes : List String :=
  ["BOOL", "BOOLEAN"]

/-- Lookup in the name→type map built by `GetRowsInfo`.  The Go map is
modelled by the insertion-ordered association list, so the last binding
wins (later duplicate column names overwrite earlier ones) and a missing
key yields the zero value `""`. -/
def lookupType (m : List (String × String)) (k : String) : String :=
  ((m.reverse).lookup k).getD ""

/-- The per-cell coercion of `mysqldb.ScanRows`: the driver value (a byte
sequence, converted to its string form) is re-coerced according to the
uppercased declared type of the column via the classification switch;
an unmatched type leaves the string unchanged. -/
def coerceValue (columnTypes : List (String × String)) (name : String)
    (cell : List Nat) : MyValue :=
  let tU := goToUpper (lookupType columnTypes name)
  if tU ∈ intFamilyTypes then .vInt (system.ConvertToInt cell)
  else if tU ∈ floatFamilyTypes then .vFloat (system.ConvertToFloat cell)
  else if tU ∈ bytesFamilyTypes then .vBytes (system.ConvertToBytes cell)
  else if tU ∈ boolFamilyTypes then .vBool (system.ConvertToBool cell)
  else .vString cell

/-- One iteration of the `sqlRows.Next()` loop in the client-server scan:
`scanErr` is the (discarded) result of `sqlRows.Scan`, `cells` the byte
sequences the text-protocol driver delivered (one per column; NULL values,
which the driver delivers as untyped nil, are not modelled — the source
would panic on the `value.([]byte)` assertion for them). -/
structure MyScanRow where
  scanErr : Option GoError
  cells : List (List Nat)
deriving DecidableEq

/-- A live client-server cursor: results of `ColumnTypes()` (as
`(name, declared type)` pairs) and `Columns()`, and the rows. -/
structure MyCursor where
  colTypesRes : Except GoError (List (String × String))
  columnsRes : Except GoError (List String)
  rows : List MyScanRow

/-- `mysqldb.MySQLdbStruct.GetRowsInfo`: identical loop to the file-backed
variant's `GetRowsInfo` (shared here as `sqlitedb.rowsInfo`). -/
def GetRowsInfo (cur : MyCursor) :
    List (Nat × String × String) × List (String × String) × Option GoError :=
  match cur.colTypesRes with
  | .error e => ([], [], some e)
  | .ok colTypes =>
    let info := sqlitedb.rowsInfo colTypes
    (info.1, info.2, none)

/-- The name→type map as `ScanRows` observes it: the second result of
`GetRowsInfo` with the error discarded (`_, columnTypes, _ := ...`); on a
metadata failure the map is empty. -/
def typesMapOf (cur : MyCursor) : List (String × String) :=
  (GetRowsInfo cur).2.1

/-- The record built for one row by the client-server scan. -/
def buildMyRecord (columnTypes : List (String × String)) (columns : List String)
    (cells : List (List Nat)) : List (String × MyValue) :=
  (columns.zip cells).map (fun p => (p.1, coerceValue columnTypes p.1 p.2))

/-- `mysqldb.MySQLdbStruct.ScanRows`: fetch the name→type map (errors
discarded), then on a `Columns()` failure return no records and that error;
otherwise scan every row, coercing each cell by its column's declared type.
As in the file-backed variant, the per-row `sqlRows.Scan` error is
discarded, so a failing row neither stops the loop nor surfaces an error. -/
def ScanRows (cur : MyCursor) : List (List (String × MyValue)) × Option GoError :=
  let columnTypes := typesMapOf cur
  match cur.columnsRes with
  | .error e => ([], some e)
  | .ok columns =>
    (cur.rows.map (fun r => buildMyRecord columnTypes columns r.cells), none)

/-- `mysqldb.MySQLdbStruct.Exec`: nil-handle guard, then the driver's
answer for the trimmed statement. -/
def Exec (drvExec : DBHandle → String → Option Nat × Option GoError)
    (conn : MySQLdbStruct) (query : String) : GoCall (Option Nat × Option GoError) :=
  match conn.DB with
  | none => .ok (none, some "not connected")
  | some h => .ok (drvExec h (goTrimSpace query))

/-- `mysqldb.MySQLdbStruct.Query`: nil-handle guard, then the driver's
cursor or error for the trimmed query. -/
def Query (drvQuery : DBHandle → String → Except GoError MyCursor)
    (conn : MySQLdbStruct) (query : String) : GoCall (Except GoError MyCursor) :=
  match conn.DB with
  | none => .ok (.error "not connected")
  | some h => .ok (drvQuery h (goTrimSpace query))

/-- `mysqldb.MySQLdbStruct.QueryRow` has no nil check: `conn.DB.QueryRow`
panics on a nil handle. -/
def QueryRow (drvRow : DBHandle → String → Nat)
    (conn : MySQLdbStruct) (query : String) : GoCall Nat :=
  match conn.DB with
  | none => .nilPanic
  | some h => .ok (drvRow h (goTrimSpace query))

/-- `mysqldb.MySQLdbStruct.QueryRecords`: no nil check on `conn.DB.Query`
(panic on a nil handle); a query error returns `(nil, err)`; otherwise the
rows are scanned by `ScanRows`. -/
def QueryRecords (drvQuery : DBHandle → String → Except GoError MyCursor)
    (conn : MySQLdbStruct) (query : String) :
    GoCall (List (List (String × MyValue)) × Option GoError) :=
  match conn.DB with
  | none => .nilPanic
  | some h =>
    match drvQuery h (goTrimSpace query) with
    | .error e => .ok ([], some e)
    | .ok cur => .ok (ScanRows cur)

/-- The scanning loop of `mysqldb.TableExists`: `err = rows.Scan(&count)`
each iteration with no break, so the last row's outcome decides; on a
success the scanned count replaces the previous one. -/
def scanCountRows (rows : List (Except GoError Nat)) : Nat × Option GoError :=
  rows.foldl (fun acc row =>
    match row with
    | .ok n => (n, none)
    | .error e => (acc.1, some e)) (0, none)

/-- `mysqldb.MySQLdbStruct.TableExists`: the five guards (nil handle, blank
database, invalid database, blank table, invalid table), then the
`INFORMATION_SCHEMA.TABLES` count query (oracle `drvCount` of handle,
database and table name), the count scan, and the `count == 1` answer. -/
def TableExists (drvCount : DBHandle → String → String → Except GoError (List (Except GoError Nat)))
    (conn : MySQLdbStruct) (tableName : String) : GoCall (Bool × Option GoError) :=
  match conn.DB with
  | none => .ok (false, some "not connected")
  | some h =>
    if conn.Database = "" then .ok (false, some "database name cannot be blank")
    else if ¬CheckDatabaseName conn.Database then .ok (false, some "invalid database name")
    else if tableName = "" then .ok (false, some "table name cannot be blank")
    else if ¬CheckTableName tableName then .ok (false, some "invalid table name")
    else
      match drvCount h conn.Database tableName with
      | .error e => .ok (false, some e)
      | .ok rows =>
        let sc := scanCountRows rows
        match sc.2 with
        | some e => .ok (false, some e)
        | none => .ok (sc.1 == 1, none)

/-- `mysqldb.MySQLdbStruct.GetSQLTableInfo`: the same five guards, then the
`INFORMATION_SCHEMA.COLUMNS` query, scanned with break-on-error (the same
loop as the file-backed catalog introspection, `sqlitedb.scanInfoRows`). -/
def GetSQLTableInfo
    (drvInfo : DBHandle → String → String → Except GoError (List (Except GoError (Nat × String × String))))
    (conn : MySQLdbStruct) (tableName : String) :
    GoCall (List (Nat × String × String) × List (String × String) × Option GoError) :=
  match conn.DB with
  | none => .ok ([], [], some "not connected")
  | some h =>
    if conn.Database = "" then .ok ([], [], some "database name cannot be blank")
    else if ¬CheckDatabaseName conn.Database then .ok ([], [], some "invalid database name")
    else if tableName = "" then .ok ([], [], some "table name cannot be blank")
    else if ¬CheckTableName tableName then .ok ([], [], some "invalid table name")
    else
      match drvInfo h conn.Database tableName with
      | .error e => .ok ([], [], some e)
      | .ok rows => .ok (sqlitedb.scanInfoRows rows)

/-- `mysqldb.MySQLdbStruct.GetTableInfo`: the same five guards, then a
`SELECT * FROM db.table LIMIT 1` probe and `GetRowsInfo` on its cursor. -/
def GetTableInfo
    (drvProbe : DBHandle → String → String → Except GoError MyCursor)
    (conn : MySQLdbStruct) (tableName : String) :
    GoCall (List (Nat × String × String) × List (String × String) × Option GoError) :=
  match conn.DB with
  | none => .ok ([], [], some "not connected")
  | some h =>
    if conn.Database = "" then .ok ([], [], some "database name cannot be blank")
    else if ¬CheckDatabaseName conn.Database then .ok ([], [], some "invalid database name")
    else if tableName = "" then .ok ([], [], some "table name cannot be blank")
    else if ¬CheckTableName tableName then .ok ([], [], some "invalid table name")
    else
      match drvProbe h conn.Database tableName with
      | .error e => .ok ([], [], some e)
      | .ok cur => .ok (GetRowsInfo cur)

end mysqldb

namespace file

/-- Decimal rendering of a natural number, as Go `fmt.Sprintf("%d", n)`
produces it (byte values of the ASCII digits). -/
def natDec (n : Nat) : List Nat :=
  if h : n < 10 then [48 + n] else natDec (n / 10) ++ [48 + n % 10]
termination_by n
decreasing_by
  exact Nat.div_lt_self (by omega) (by omega)

/-- Go `fmt.Sprintf("%02d", n)`: zero-padded to (at least) two digits. -/
def pad2 (n : Nat) : List Nat :=
  if n < 10 then [48, 48 + n] else natDec n

/-- Go `fmt.Sprintf("%d", i)` for a signed value. -/
def intDec (i : Int) : List Nat :=
  if i < 0 then 45 :: natDec i.natAbs else natDec i.natAbs

/-- The first escaping pass of `file.Log`, the `strings.NewReplacer` call:
backslash, tab, newline and carriage return each become a two-character
escape sequence. -/
def logEscape1 : List Nat → List Nat
  | [] => []
  | b :: rest =>
    (if b = 92 then [92, 92]
     else if b = 9 then [92, 116]
     else if b = 10 then [92, 110]
     else if b = 13 then [92, 114]
     else [b]) ++ logEscape1 rest

/-- An uppercase hexadecimal digit as `%02X` renders it. -/
def hexUpper (n : Nat) : Nat :=
  if n < 10 then 48 + n else 55 + n

/-- The second escaping pass of `file.Log`, the byte loop: printable ASCII
(0x20–0x7E) is copied, every other byte becomes `\xNN` with uppercase hex
digits. -/
def logEscape2 : List Nat → List Nat
  | [] => []
  | b :: rest =>
    (if 32 ≤ b ∧ b < 127 then [b]
     else [92, 120, hexUpper (b / 16), hexUpper (b % 16)]) ++ logEscape2 rest

/-- The time fields `file.Log` reads off `time.Now().UTC()`. -/
structure GoTime where
  year : Nat
  month : Nat
  day : Nat
  hour : Nat
  minute : Nat
  sec : Nat

/-- The caller path and filename as `file.Log` computes them: when the
caller lookup succeeded (`runtime.Caller(1)`'s flag and a non-nil
`FuncForPC`, collapsed into `callerOk`), the caller's file path is split
and the directory's trailing slash removed; otherwise both stay empty. -/
def logCallerParts (callerFile : String) (callerOk : Bool) : String × String :=
  if callerOk then
    let sp := goFilepathSplit callerFile
    (trimRightSlash sp.1, sp.2)
  else ("", "")

/-- The seven tab-separated fields of a log line, in order: microsecond
timestamp, compact date `%d%02d%02d`, compact time `%02d%02d%02d`, caller
path, caller filename, caller line number, escaped message. -/
def logFields (utm : Int) (t : GoTime) (callerFile : String) (callerLine : Nat)
    (callerOk : Bool) (message : List Nat) : List (List Nat) :=
  [intDec utm,
   natDec t.year ++ pad2 t.month ++ pad2 t.day,
   pad2 t.hour ++ pad2 t.minute ++ pad2 t.sec,
   strBytes (logCallerParts callerFile callerOk).1,
   strBytes (logCallerParts callerFile callerOk).2,
   natDec callerLine,
   logEscape2 (logEscape1 message)]

/-- The header line written when the log file does not yet exist. -/
def logHeader : List Nat :=
  strBytes "utm\tcymd\thms\tpath\tfilename\tline\terror\n"

/-- `file.Log`: the byte string one call appends to the fixed log file
(`"/tmp/golang.log"`).  `fileExists` is `file.FilePathExists` on that path;
when false the header line precedes the entry.  The entry itself is the
`fmt.Sprintf("%d\t%d%02d%02d\t%02d%02d%02d\t%v\t%v\t%v\t%v\n", ...)` line:
the seven fields joined by tabs, terminated by one newline.  (The
surrounding mutex and the `FileAppend` I/O are outside the model; the
function returns the appended bytes.) -/
def Log (fileExists : Bool) (utm : Int) (t : GoTime) (callerFile : String)
    (callerLine : Nat) (callerOk : Bool) (message : List Nat) : List Nat :=
  (if fileExists then [] else logHeader) ++
    List.intercalate [9] (logFields utm t callerFile callerLine callerOk message) ++ [10]

end file

namespace conv

/-!
The `conv` package delegates to `encoding/base64` and to the basE91 codec
library; both are embedded here concretely, byte for byte.  Go strings are
byte sequences, modelled as `List Nat`.
-/

/-- The standard base64 alphabet used by `base64.StdEncoding`. -/
def base64Chars : List Nat :=
  strBytes "ABCDEFGHIJKLMNOPQRSTUVWXYZabcdefghijklmnopqrstuvwxyz0123456789+/"

/-- The alphabet character for a 6-bit value. -/
def b64chr (n : Nat) : Nat :=
  base64Chars.getD n 65

/-- The 6-bit value of an alphabet character (none for characters outside
the alphabet, including the padding '='). -/
def b64dec (b : Nat) : Option Nat :=
  base64Chars.indexOf? b

/-- `base64.StdEncoding.EncodeToString`: three input bytes become four
alphabet characters; a two-byte tail becomes three characters and one
padding '=', a one-byte tail two characters and two paddings. -/
def b64encodeBytes : List Nat → List Nat
  | b1 :: b2 :: b3 :: rest =>
    b64chr (b1 / 4) :: b64chr (b1 % 4 * 16 + b2 / 16) ::
      b64chr (b2 % 16 * 4 + b3 / 64) :: b64chr (b3 % 64) :: b64encodeBytes rest
  | [b1, b2] => [b64chr (b1 / 4), b64chr (b1 % 4 * 16 + b2 / 16), b64chr (b2 % 16 * 4), 61]
  | [b1] => [b64chr (b1 / 4), b64chr (b1 % 4 * 16), 61, 61]
  | [] => []

/-- The quantum loop of `base64.StdEncoding.DecodeString` (non-strict mode:
trailing bits beyond the declared length are not checked): four characters
at a time, padding allowed only in the last quantum, any other shape or any
non-alphabet character is a corrupt-input error. -/
def b64decodeQuads : List Nat → Except GoError (List Nat)
  | [] => .ok []
  | c1 :: c2 :: c3 :: c4 :: rest =>
    match b64dec c1, b64dec c2 with
    | some d1, some d2 =>
      if c3 = 61 then
        if c4 = 61 ∧ rest = [] then .ok [d1 * 4 + d2 / 16]
        else .error "illegal base64 data"
      else
        match b64dec c3 with
        | some d3 =>
          if c4 = 61 then
            if rest = [] then .ok [d1 * 4 + d2 / 16, d2 % 16 * 16 + d3 / 4]
            else .error "illegal base64 data"
          else
            match b64dec c4 with
            | some d4 =>
              match b64decodeQuads rest with
              | .error e => .error e
              | .ok tail =>
                .ok ((d1 * 4 + d2 / 16) :: (d2 % 16 * 16 + d3 / 4) :: (d3 % 4 * 64 + d4) :: tail)
            | none => .error "illegal base64 data"
        | none => .error "illegal base64 data"
    | _, _ => .error "illegal base64 data"
  | _ => .error "illegal base64 data"

/-- `base64.StdEncoding.DecodeString`: carriage returns and newlines are
ignored, then the quantum loop runs. -/
def b64decodeString (s : List Nat) : Except GoError (List Nat) :=
  b64decodeQuads (s.filter (fun b => decide (b ≠ 13) && decide (b ≠ 10)))

/-- `conv.Base64_encode`: empty in, empty out; otherwise the standard
encoding. -/
def Base64_encode (dataString : List Nat) : List Nat :=
  if dataString = [] then dataString
  else b64encodeBytes dataString

/-- `conv.Base64_decode`: empty in, empty out with nil error; a decode
error yields the empty string plus the error, never a partial result. -/
def Base64_decode (dataString : List Nat) : List Nat × Option GoError :=
  if dataString = [] then (dataString, none)
  else
    match b64decodeString dataString with
    | .error e => ([], some e)
    | .ok bs => (bs, none)

/-- The `strings.NewReplacer("+", "-", "/", "_", "=", "")` pass of
`Base64url_encode`: '+' to '-', '/' to '_', '=' removed. -/
def b64urlSub : List Nat → List Nat
  | [] => []
  | b :: rest =>
    (if b = 43 then [45] else if b = 47 then [95] else if b = 61 then [] else [b]) ++
      b64urlSub rest

/-- The `strings.NewReplacer("-", "+", "_", "/")` pass of
`Base64url_decode`. -/
def b64urlUnsub : List Nat → List Nat
  | [] => []
  | b :: rest =>
    (if b = 45 then 43 else if b = 95 then 47 else b) :: b64urlUnsub rest

/-- The re-padding switch of `Base64url_decode`: pad with trailing '='s to
a multiple of four (lengths 2 and 3 mod 4). -/
def b64pad (l : List Nat) : List Nat :=
  if l.length % 4 = 2 then l ++ [61, 61]
  else if l.length % 4 = 3 then l ++ [61]
  else l

/-- `conv.Base64url_encode`. -/
def Base64url_encode (dataString : List Nat) : List Nat :=
  if dataString = [] then dataString
  else b64urlSub (Base64_encode dataString)

/-- `conv.Base64url_decode`. -/
def Base64url_decode (dataString : List Nat) : List Nat × Option GoError :=
  if dataString = [] then (dataString, none)
  else Base64_decode (b64pad (b64urlUnsub dataString))

/-- The standard basE91 alphabet of the base91 library (the two braces are
written as hex escapes). -/
def base91Chars : List Nat :=
  strBytes "ABCDEFGHIJKLMNOPQRSTUVWXYZabcdefghijklmnopqrstuvwxyz0123456789!#$%&()*+,./:;<=>?@[]^_`\x7b|\x7d~\""

/-- The alphabet character for a base-91 digit. -/
def b91chr (n : Nat) : Nat :=
  base91Chars.getD n 65

/-- The base-91 digit of an alphabet character (none outside the
alphabet). -/
def b91dec (b : Nat) : Option Nat :=
  base91Chars.indexOf? b

/-- The encoder loop of the base91 library's `Encode` followed by its final
flush: bytes are pushed into the accumulator `queue` above the `numBits`
bits already there; when more than 13 bits have accumulated, 13 bits are
emitted if their value exceeds 88, else 14 bits, as two base-91 digits
(low digit first); at the end the remaining bits are flushed as one digit,
or two when more than 7 bits remain or the value exceeds 90. -/
def b91encLoop : List Nat → Nat → Nat → List Nat
  | [], queue, numBits =>
    if numBits > 0 then
      if numBits > 7 ∨ queue > 90 then [b91chr (queue % 91), b91chr (queue / 91)]
      else [b91chr (queue % 91)]
    else []
  | b :: rest, queue, numBits =>
    let queue' := queue ||| (b <<< numBits)
    let numBits' := numBits + 8
    if numBits' > 13 then
      let v := queue' &&& 8191
      if v > 88 then
        b91chr (v % 91) :: b91chr (v / 91) :: b91encLoop rest (queue' >>> 13) (numBits' - 13)
      else
        let v2 := queue' &&& 16383
        b91chr (v2 % 91) :: b91chr (v2 / 91) :: b91encLoop rest (queue' >>> 14) (numBits' - 14)
    else
      b91encLoop rest queue' numBits'

/-- The byte-draining inner loop of the base91 decoder: while more than 7
bits are pending, emit the low byte (`byte(queue)`, i.e. the value modulo
256) and shift.  Returns the emitted bytes and the remaining
queue/bit-count. -/
def b91drain (queue numBits : Nat) : List Nat × Nat × Nat :=
  if numBits > 7 then
    let r := b91drain (queue >>> 8) (numBits - 8)
    ((queue % 256) :: r.1, r.2)
  else ([], queue, numBits)
termination_by numBits
decreasing_by
  omega

/-- The base91 library's `Decode`: characters outside the alphabet are a
corrupt-input error; digits are consumed in pairs `v = d1 + 91*d2`, each
pair contributing 13 bits when `v & 8191 > 88` and 14 bits otherwise, with
full bytes drained as they accumulate; a trailing unpaired digit `v` ends
the output with `byte(queue | v<<numBits)`. -/
def b91decLoop : List Nat → Nat → Nat → Option Nat → Except GoError (List Nat)
  | [], queue, numBits, v? =>
    match v? with
    | none => .ok []
    | some v => .ok [(queue ||| (v <<< numBits)) % 256]
  | c :: rest, queue, numBits, v? =>
    match b91dec c with
    | none => .error "illegal base91 data"
    | some d =>
      match v? with
      | none => b91decLoop rest queue numBits (some d)
      | some v0 =>
        let v := v0 + d * 91
        let queue' := queue ||| (v <<< numBits)
        let numBits' := if v &&& 8191 > 88 then numBits + 13 else numBits + 14
        let dr := b91drain queue' numBits'
        match b91decLoop rest dr.2.1 dr.2.2 none with
        | .error e => .error e
        | .ok tail => .ok (dr.1 ++ tail)

/-- The escaping replacer of `Base91_encode`: double quote, dollar and
grave accent become "-q", "-d" and "-g". -/
def b91escape : List Nat → List Nat
  | [] => []
  | b :: rest =>
    (if b = 34 then [45, 113] else if b = 36 then [45, 100]
     else if b = 96 then [45, 103] else [b]) ++ b91escape rest

/-- The unescaping replacer of `Base91_decode`: "-g", "-d", "-q" back to
grave accent, dollar, double quote (the patterns are two characters long
and disjoint, so match order is immaterial). -/
def b91unescape : List Nat → List Nat
  | 45 :: 103 :: rest => 96 :: b91unescape rest
  | 45 :: 100 :: rest => 36 :: b91unescape rest
  | 45 :: 113 :: rest => 34 :: b91unescape rest
  | b :: rest => b :: b91unescape rest
  | [] => []

/-- `conv.Base91_encode`. -/
def Base91_encode (dataString : List Nat) (escapeBool : Bool) : List Nat :=
  if dataString = [] then dataString
  else
    let enc := b91encLoop dataString 0 0
    if escapeBool then b91escape enc else enc

/-- `conv.Base91_decode`: a decode error yields the empty string plus the
error, never a partial result. -/
def Base91_decode (dataString : List Nat) (unescapeBool : Bool) : List Nat × Option GoError :=
  if dataString = [] then (dataString, none)
  else
    let s := if unescapeBool then b91unescape dataString else dataString
    match b91decLoop s 0 0 none with
    | .error e => ([], some e)
    | .ok bs => (bs, none)

/-- Verification vocabulary (not from the source): the little-endian value
of a byte sequence, used to state what the base91 accumulators hold. -/
def bytesToNat : List Nat → Nat
  | [] => 0
  | b :: rest => b + 256 * bytesToNat rest

/-- Verification vocabulary (not from the source): the `k` low bytes of a
number, little-endian — the byte sequence a decoder drain produces. -/
def lowBytes (q : Nat) : Nat → List Nat
  | 0 => []
  | k + 1 => q % 256 :: lowBytes (q / 256) k

/-- A decoded JSON document (the dynamic value `json.Unmarshal` fills an
`interface` with). -/
inductive JSONValue where
  | null
  | bool (b : Bool)
  | number (q : ℚ)
  | str (s : List Nat)
  | arr (elems : List JSONValue)
  | obj (fields : List (List Nat × JSONValue))

/-- `conv.JSON_decode`: the standard-library `json.Unmarshal` is an
external collaborator, taken as the oracle `unmarshal`; on its error the
interface value is reset to nil and returned with the error. -/
def JSON_decode (unmarshal : List Nat → Except GoError JSONValue)
    (jsonString : List Nat) : Option JSONValue × Option GoError :=
  match unmarshal jsonString with
  | .error e => (none, some e)
  | .ok v => (some v, none)

end conv

/-- C4: for every string `t`, `CheckTableName t` (and `CheckDatabaseName t`,
the same predicate) is true iff `t` starts with a character in `[_A-Za-z]`
and every character of `t` lies in `[_A-Za-z0-9]`; in particular
`"_abc123"` is accepted while `"1abc"`, `"ab-c"` and `""` are rejected. -/
theorem claim_C4_check_table_name :
    (∀ t : String,
      (mysqldb.CheckTableName t = true ↔
        ((∃ c cs, t.data = c :: cs ∧ mysqldb.isStartChar c = true) ∧
          ∀ c ∈ t.data, mysqldb.isNameChar c = true)) ∧
      mysqldb.CheckDatabaseName t = mysqldb.CheckTableName t) ∧
    mysqldb.CheckTableName "_abc123" = true ∧
    mysqldb.CheckTableName "1abc" = false ∧
    mysqldb.CheckTableName "ab-c" = false ∧
    mysqldb.CheckTableName "" = false := by
  refine ⟨fun t => ⟨?_, rfl⟩, by decide, by decide, by decide, by decide⟩
  have hsplit : mysqldb.CheckTableName t =
      (mysqldb.matchStartAnchored t && mysqldb.matchWholeAnchored t) := by
    unfold mysqldb.CheckTableName
    cases mysqldb.matchStartAnchored t <;> simp
  rw [hsplit]
  simp only [Bool.and_eq_true, mysqldb.matchWholeAnchored, List.all_eq_true]
  constructor
  · rintro ⟨hstart, hall⟩
    refine ⟨?_, hall⟩
    unfold mysqldb.matchStartAnchored at hstart
    cases h : t.data with
    | nil => rw [h] at hstart; exact absurd hstart (by simp)
    | cons c cs => rw [h] at hstart; exact ⟨c, cs, rfl, hstart⟩
  · rintro ⟨⟨c, cs, hdata, hc⟩, hall⟩
    refine ⟨?_, hall⟩
    unfold mysqldb.matchStartAnchored
    rw [hdata]
    exact hc

/-- C7: a file-backed configuration with `Database = "foo.sqlite"` and no
explicit extension override yields `Database = "foo"` and
`DatabaseExt = "sqlite"` after `Connect`, the extension being
`file.FilenameExt` of the name and the base `file.FilenameBase` of the
name (the name minus that suffix). -/
theorem claim_C7_connect_extension_split :
    ∀ (callerPath : Option String) (selfPath : String) (fileExists : String → Bool)
      (newHandle : DBHandle) (fp : String) (ac : Bool) (db0 : Option DBHandle),
      (sqlitedb.Connect callerPath selfPath fileExists newHandle
          ⟨fp, "foo.sqlite", "", ac, db0⟩).1.Database = "foo" ∧
      (sqlitedb.Connect callerPath selfPath fileExists newHandle
          ⟨fp, "foo.sqlite", "", ac, db0⟩).1.DatabaseExt = "sqlite" ∧
      file.FilenameExt selfPath "foo.sqlite" = "sqlite" ∧
      file.FilenameBase selfPath "foo.sqlite" = "foo" ∧
      "foo" ++ "." ++ "sqlite" = "foo.sqlite" := by
  intro callerPath selfPath fileExists newHandle fp ac db0
  have hExt : file.FilenameExt selfPath "foo.sqlite" = "sqlite" := by
    simp [file.FilenameExt, show ("foo.sqlite" : String) ≠ "" from by decide]
    decide
  have hBase : file.FilenameBase selfPath "foo.sqlite" = "foo" := by
    simp [file.FilenameBase, show ("foo.sqlite" : String) ≠ "" from by decide]
    decide
  refine ⟨?_, ?_, hExt, hBase, by decide⟩ <;>
    (unfold sqlitedb.Connect sqlitedb.connectNorm
     simp +decide only [hExt, hBase, reduceIte]
     split <;> split <;> rfl)

/-- C6 (amended): with both database name and file path blank, the final
file path is the caller's source location (when it can be resolved) minus
its extension plus ".db"; and `Connect` never fails with an InvalidState
"caller location unavailable" error — its only possible error is the
NotFound message for a missing file, because the failure flag of the
caller-location lookup is discarded. -/
theorem claim_C6_caller_derived_path :
    (∀ (selfPath : String) (fileExists : String → Bool) (newHandle : DBHandle)
       (ac : Bool) (db0 : Option DBHandle) (p : String), p ≠ "" →
       (sqlitedb.Connect (some p) selfPath fileExists newHandle
         ⟨"", "", "", ac, db0⟩).1.FilePath = file.FilePathBase selfPath p ++ ".db") ∧
    (∀ (callerPath : Option String) (selfPath : String) (fileExists : String → Bool)
       (newHandle : DBHandle) (conn : sqlitedb.SQLiteDBStruct),
       (sqlitedb.Connect callerPath selfPath fileExists newHandle conn).2 = none ∨
       (sqlitedb.Connect callerPath selfPath fileExists newHandle conn).2 =
         some (sqlitedb.notFoundMsg
           (sqlitedb.Connect callerPath selfPath fileExists newHandle conn).1.FilePath)) := by
  constructor
  · intro selfPath fileExists newHandle ac db0 p hp
    unfold sqlitedb.Connect sqlitedb.connectNorm
    simp +decide only [ne_eq, Option.getD_some, reduceIte]
    repeat' split
    all_goals rfl
  · intro callerPath selfPath fileExists newHandle conn
    unfold sqlitedb.Connect
    simp only
    split
    · right; rfl
    · left; rfl

/-- C6 counterexample: with database and file path blank and an
unresolvable caller location (`runtime.Caller` reporting failure), `Connect`
does not fail at all (no InvalidState error): the discarded empty path falls
through to the library's own source path and the connection opens. -/
theorem claim_C6_counterexample :
    (sqlitedb.Connect none "/lib/db/s.go" (fun _ => false) ⟨0⟩
      ⟨"", "", "", true, none⟩).2 = none ∧
    (sqlitedb.Connect none "/lib/db/s.go" (fun _ => false) ⟨0⟩
      ⟨"", "", "", true, none⟩).1.FilePath = "/lib/db/s.db" := by
  constructor
  · decide
  · decide

/-- C6 witness: the amended theorem applied at a concrete caller path. -/
theorem claim_C6_witness :
    ("/home/app/main.go" : String) ≠ "" ∧
    (sqlitedb.Connect (some "/home/app/main.go") "/lib/db/s.go" (fun _ => true) ⟨0⟩
      ⟨"", "", "", false, none⟩).1.FilePath =
        file.FilePathBase "/lib/db/s.go" "/home/app/main.go" ++ ".db" ∧
    file.FilePathBase "/lib/db/s.go" "/home/app/main.go" ++ ".db" = "/home/app/main.db" :=
  ⟨by decide,
   claim_C6_caller_derived_path.1 "/lib/db/s.go" (fun _ => true) ⟨0⟩ false none
     "/home/app/main.go" (by decide),
   by decide⟩

/-- C5 (amended): when the explicit flag is passed as true, `Connect`'s
environment phase overlays host, user, password and the
legacy-authentication flag (`AllowNativePasswords`) from the named
environment variables, and takes the database name from the environment
only when it is blank; the auto-create flag is never touched.  When the
flag is absent or false, the configuration is untouched and `Connect`'s
result does not depend on the environment at all. -/
theorem claim_C5_env_overlay :
    (∀ (bs : List Bool) (env : String → String) (conn : mysqldb.MySQLdbStruct),
      mysqldb.connectCheckENV (true :: bs) env conn =
        { conn with
            Database := if conn.Database = "" then env "MYSQL_DATABASE" else conn.Database
            Host := env "MYSQL_HOST"
            User := env "MYSQL_USER"
            Password := env "MYSQL_PWD"
            AllowNativePasswords := env "MYSQL_ALLOW_NATIVE_PASSWORDS" == "true" } ∧
      (mysqldb.connectCheckENV (true :: bs) env conn).AutoCreate = conn.AutoCreate) ∧
    (∀ (env : String → String) (conn : mysqldb.MySQLdbStruct),
      mysqldb.connectCheckENV [] env conn = conn) ∧
    (∀ (bs : List Bool) (env : String → String) (conn : mysqldb.MySQLdbStruct),
      mysqldb.connectCheckENV (false :: bs) env conn = conn) ∧
    (∀ (env env' : String → String) (drv : mysqldb.MySQLDriver) (nh : DBHandle)
       (conn : mysqldb.MySQLdbStruct),
      mysqldb.Connect [] env drv nh conn = mysqldb.Connect [] env' drv nh conn) ∧
    (∀ (bs : List Bool) (env env' : String → String) (drv : mysqldb.MySQLDriver)
       (nh : DBHandle) (conn : mysqldb.MySQLdbStruct),
      mysqldb.Connect (false :: bs) env drv nh conn =
        mysqldb.Connect (false :: bs) env' drv nh conn) :=
  ⟨fun _ _ _ => ⟨rfl, rfl⟩, fun _ _ => rfl, fun _ _ _ => rfl,
   fun _ _ _ _ _ => rfl, fun _ _ _ _ _ _ => rfl⟩

/-- C5 counterexample: with every named environment variable set to the
string "true" and the flag passed as true, the overlay rewrites the host
(to "true") and sets the legacy-authentication flag, but the configuration's
auto-create flag stays false — so no environment variable overlays the
auto-create flag, contrary to the claim. -/
theorem claim_C5_counterexample :
    (mysqldb.connectCheckENV [true] (fun _ => "true")
      ⟨"h", "u", "p", false, "db0", false, none⟩).AutoCreate = false ∧
    (mysqldb.connectCheckENV [true] (fun _ => "true")
      ⟨"h", "u", "p", false, "db0", false, none⟩).AllowNativePasswords = true ∧
    (mysqldb.connectCheckENV [true] (fun _ => "true")
      ⟨"h", "u", "p", false, "db0", false, none⟩).Host = "true" := by
  refine ⟨rfl, by decide, rfl⟩

/-- C2 (amended): on a configuration whose handle is nil (closed or never
opened), `Exec`, `Query` and the introspection operations of both variants
return a NotConnected error to the caller; but `QueryRow` and
`QueryRecords` of both variants perform no handle check and dereference the
nil handle, which is a run-time panic, not an error return. -/
theorem claim_C2_not_connected_guards :
    ∀ (q fp db ext host user pw dbn tbl : String) (ac anp ac' : Bool)
      (drvE : DBHandle → String → Option Nat × Option GoError)
      (drvQ : DBHandle → String → Except GoError sqlitedb.Cursor)
      (drvR : DBHandle → String → Nat)
      (drvI : DBHandle → String → Except GoError (List (Except GoError (Nat × String × String))))
      (drvP : DBHandle → String → Except GoError (Except GoError (List (String × String))))
      (drvQ2 : DBHandle → String → Except GoError mysqldb.MyCursor)
      (drvC : DBHandle → String → String → Except GoError (List (Except GoError Nat)))
      (drvI2 : DBHandle → String → String → Except GoError (List (Except GoError (Nat × String × String))))
      (drvP2 : DBHandle → String → String → Except GoError mysqldb.MyCursor),
      sqlitedb.Exec drvE ⟨fp, db, ext, ac, none⟩ q = .ok (none, some "not connected") ∧
      sqlitedb.Query drvQ ⟨fp, db, ext, ac, none⟩ q = .ok (.error "not connected") ∧
      sqlitedb.GetSQLTableInfo drvI ⟨fp, db, ext, ac, none⟩ tbl =
        .ok ([], [], some "not connected") ∧
      sqlitedb.GetTableInfo drvP ⟨fp, db, ext, ac, none⟩ tbl =
        .ok ([], [], some "not connected") ∧
      sqlitedb.QueryRow drvR ⟨fp, db, ext, ac, none⟩ q = .nilPanic ∧
      sqlitedb.QueryRecords drvQ ⟨fp, db, ext, ac, none⟩ q = .nilPanic ∧
      mysqldb.Exec drvE ⟨host, user, pw, anp, dbn, ac', none⟩ q =
        .ok (none, some "not connected") ∧
      mysqldb.Query drvQ2 ⟨host, user, pw, anp, dbn, ac', none⟩ q =
        .ok (.error "not connected") ∧
      mysqldb.TableExists drvC ⟨host, user, pw, anp, dbn, ac', none⟩ tbl =
        .ok (false, some "not connected") ∧
      mysqldb.GetSQLTableInfo drvI2 ⟨host, user, pw, anp, dbn, ac', none⟩ tbl =
        .ok ([], [], some "not connected") ∧
      mysqldb.GetTableInfo drvP2 ⟨host, user, pw, anp, dbn, ac', none⟩ tbl =
        .ok ([], [], some "not connected") ∧
      mysqldb.QueryRow drvR ⟨host, user, pw, anp, dbn, ac', none⟩ q = .nilPanic ∧
      mysqldb.QueryRecords drvQ2 ⟨host, user, pw, anp, dbn, ac', none⟩ q = .nilPanic := by
  intro _ _ _ _ _ _ _ _ _ _ _ _ _ _ _ _ _ _ _ _ _
  exact ⟨rfl, rfl, rfl, rfl, rfl, rfl, rfl, rfl, rfl, rfl, rfl, rfl, rfl⟩

/-- C2 counterexample: on the never-opened zero configurations, `QueryRow`
and `QueryRecords` of both variants end in the nil-pointer panic — they
return nothing at all, not a NotConnected error as the claim states. -/
theorem claim_C2_counterexample :
    sqlitedb.QueryRow (fun _ _ => 0) ⟨"", "", "", false, none⟩ "SELECT 1;" = .nilPanic ∧
    sqlitedb.QueryRecords (fun _ _ => .error "e") ⟨"", "", "", false, none⟩ "SELECT 1;" =
      .nilPanic ∧
    mysqldb.QueryRow (fun _ _ => 0) ⟨"", "", "", false, "", false, none⟩ "SELECT 1;" =
      .nilPanic ∧
    mysqldb.QueryRecords (fun _ _ => .error "e") ⟨"", "", "", false, "", false, none⟩
      "SELECT 1;" = .nilPanic :=
  ⟨rfl, rfl, rfl, rfl⟩

/-- C3 counterexample (file-backed variant): a cursor whose first row fails
to scan and whose second row succeeds yields TWO records and a nil error —
the scan neither stopped at the failing row nor returned the scan error,
contrary to the claim (which predicts zero accumulated records plus the
error "scan failed"). -/
theorem claim_C3_counterexample :
    sqlitedb.ScanRows
      ⟨.ok ["a"], [⟨some "scan failed", [.gInt64 1]⟩, ⟨none, [.gInt64 2]⟩]⟩ =
      ([[("a", .gInt 1)], [("a", .gInt 2)]], none) := by
  decide

/-- C3 (amended): in both variants `ScanRows` discards the per-row
`rows.Scan` error: whenever `Columns()` succeeds, every row contributes a
record and the returned error is nil, regardless of any row's scan error;
the only error `ScanRows` can return is the `Columns()` one (with no
records).  The claimed stop-at-the-failing-row-and-return-accumulated
behaviour is instead implemented by the catalog introspection scanners
(`GetSQLTableInfo` of both variants, via `scanInfoRows`). -/
theorem claim_C3_scan_errors_ignored :
    (∀ (cur : sqlitedb.Cursor) (cols : List String),
      cur.columnsRes = .ok cols →
      sqlitedb.ScanRows cur =
        (cur.rows.map (fun r => sqlitedb.buildRecord cols r.values), none)) ∧
    (∀ (cur : sqlitedb.Cursor) (e : GoError),
      cur.columnsRes = .error e → sqlitedb.ScanRows cur = ([], some e)) ∧
    (∀ (cur : mysqldb.MyCursor) (cols : List String),
      cur.columnsRes = .ok cols →
      mysqldb.ScanRows cur =
        (cur.rows.map (fun r =>
          mysqldb.buildMyRecord (mysqldb.typesMapOf cur) cols r.cells), none)) ∧
    (∀ (cur : mysqldb.MyCursor) (e : GoError),
      cur.columnsRes = .error e → mysqldb.ScanRows cur = ([], some e)) ∧
    (∀ (pre : List (Nat × String × String)) (e : GoError)
       (rest : List (Except GoError (Nat × String × String))),
      sqlitedb.scanInfoRows (pre.map .ok ++ .error e :: rest) =
        (pre, pre.map (fun r => (r.2.1, r.2.2)), some e)) := by
  refine ⟨?_, ?_, ?_, ?_, ?_⟩
  · intro cur cols h
    simp [sqlitedb.ScanRows, h]
  · intro cur e h
    simp [sqlitedb.ScanRows, h]
  · intro cur cols h
    simp [mysqldb.ScanRows, h]
  · intro cur e h
    simp [mysqldb.ScanRows, h]
  · intro pre e rest
    induction pre with
    | nil => rfl
    | cons r pre ih => simp [sqlitedb.scanInfoRows, ih]

/-- C3 witness: the amended theorem applied to a concrete cursor with a
failing row, and to a concrete failing introspection scan. -/
theorem claim_C3_witness :
    sqlitedb.ScanRows ⟨.ok ["a"], [⟨some "boom", [.gInt64 5]⟩]⟩ =
      ([[("a", sqlitedb.GoValue.gInt 5)]], none) ∧
    sqlitedb.scanInfoRows [.ok (1, "id", "INTEGER"), .error "bad row"] =
      ([(1, "id", "INTEGER")], [("id", "INTEGER")], some "bad row") := by
  constructor
  · have h := claim_C3_scan_errors_ignored.1 ⟨.ok ["a"], [⟨some "boom", [.gInt64 5]⟩]⟩ ["a"] rfl
    rw [h]
    decide
  · have h := claim_C3_scan_errors_ignored.2.2.2.2 [(1, "id", "INTEGER")] "bad row" []
    simpa using h

/-- Disjointness of the switch's float family from the integer family. -/
theorem floatFamily_disjoint_intFamily :
    ∀ x ∈ mysqldb.floatFamilyTypes, x ∉ mysqldb.intFamilyTypes := by decide

/-- Disjointness of the switch's byte family from the earlier families. -/
theorem bytesFamily_disjoint_intFamily :
    ∀ x ∈ mysqldb.bytesFamilyTypes, x ∉ mysqldb.intFamilyTypes := by decide

theorem bytesFamily_disjoint_floatFamily :
    ∀ x ∈ mysqldb.bytesFamilyTypes, x ∉ mysqldb.floatFamilyTypes := by decide

/-- Disjointness of the switch's boolean family from the earlier families. -/
theorem boolFamily_disjoint_intFamily :
    ∀ x ∈ mysqldb.boolFamilyTypes, x ∉ mysqldb.intFamilyTypes := by decide

theorem boolFamily_disjoint_floatFamily :
    ∀ x ∈ mysqldb.boolFamilyTypes, x ∉ mysqldb.floatFamilyTypes := by decide

theorem boolFamily_disjoint_bytesFamily :
    ∀ x ∈ mysqldb.boolFamilyTypes, x ∉ mysqldb.bytesFamilyTypes := by decide

/-- C1: the client-server `ScanRows` (and therefore `QueryRecords`) coerces
every cell of every record by the column's declared catalog type: the
driver's byte sequence, taken as a string, is dispatched on the uppercased
declared type — integer family to an integer value, decimal/float family to
a floating-point value, binary/blob family to raw bytes, boolean family to
a boolean, and any unmatched type stays a string; in particular a column
typed "INT" yields integer values, "DECIMAL" floating-point values and
"BLOB" raw byte values. -/
theorem claim_C1_mysql_type_coercion :
    (∀ (cur : mysqldb.MyCursor) (columns : List String),
      cur.columnsRes = .ok columns →
      mysqldb.ScanRows cur =
        (cur.rows.map (fun r =>
          (columns.zip r.cells).map (fun p =>
            (p.1, mysqldb.coerceValue (mysqldb.typesMapOf cur) p.1 p.2))), none)) ∧
    (∀ (drvQ : DBHandle → String → Except GoError mysqldb.MyCursor)
       (conn : mysqldb.MySQLdbStruct) (q : String) (h : DBHandle)
       (cur : mysqldb.MyCursor),
      conn.DB = some h → drvQ h (goTrimSpace q) = .ok cur →
      mysqldb.QueryRecords drvQ conn q = .ok (mysqldb.ScanRows cur)) ∧
    (∀ (types : List (String × String)) (name : String) (cell : List Nat),
      (goToUpper (mysqldb.lookupType types name) ∈ mysqldb.intFamilyTypes →
        mysqldb.coerceValue types name cell = .vInt (system.ConvertToInt cell)) ∧
      (goToUpper (mysqldb.lookupType types name) ∈ mysqldb.floatFamilyTypes →
        mysqldb.coerceValue types name cell = .vFloat (system.ConvertToFloat cell)) ∧
      (goToUpper (mysqldb.lookupType types name) ∈ mysqldb.bytesFamilyTypes →
        mysqldb.coerceValue types name cell = .vBytes (system.ConvertToBytes cell)) ∧
      (goToUpper (mysqldb.lookupType types name) ∈ mysqldb.boolFamilyTypes →
        mysqldb.coerceValue types name cell = .vBool (system.ConvertToBool cell)) ∧
      (goToUpper (mysqldb.lookupType types name) ∉ mysqldb.intFamilyTypes ∧
       goToUpper (mysqldb.lookupType types name) ∉ mysqldb.floatFamilyTypes ∧
       goToUpper (mysqldb.lookupType types name) ∉ mysqldb.bytesFamilyTypes ∧
       goToUpper (mysqldb.lookupType types name) ∉ mysqldb.boolFamilyTypes →
        mysqldb.coerceValue types name cell = .vString cell)) ∧
    (∀ (cell : List Nat),
      mysqldb.coerceValue [("c", "INT")] "c" cell = .vInt (system.ConvertToInt cell) ∧
      mysqldb.coerceValue [("c", "DECIMAL")] "c" cell = .vFloat (system.ConvertToFloat cell) ∧
      mysqldb.coerceValue [("c", "BLOB")] "c" cell = .vBytes cell) := by
  refine ⟨?_, ?_, ?_, ?_⟩
  · intro cur columns h
    simp [mysqldb.ScanRows, mysqldb.buildMyRecord, h]
  · intro drvQ conn q h cur hDB hQ
    simp [mysqldb.QueryRecords, hDB, hQ]
  · intro types name cell
    refine ⟨fun h => ?_, fun h => ?_, fun h => ?_, fun h => ?_, fun h => ?_⟩
    · simp only [mysqldb.coerceValue]
      rw [if_pos h]
    · simp only [mysqldb.coerceValue]
      rw [if_neg (floatFamily_disjoint_intFamily _ h), if_pos h]
    · simp only [mysqldb.coerceValue]
      rw [if_neg (bytesFamily_disjoint_intFamily _ h),
        if_neg (bytesFamily_disjoint_floatFamily _ h), if_pos h]
    · simp only [mysqldb.coerceValue]
      rw [if_neg (boolFamily_disjoint_intFamily _ h),
        if_neg (boolFamily_disjoint_floatFamily _ h),
        if_neg (boolFamily_disjoint_bytesFamily _ h), if_pos h]
    · simp only [mysqldb.coerceValue]
      rw [if_neg h.1, if_neg h.2.1, if_neg h.2.2.1, if_neg h.2.2.2]
  · intro cell
    refine ⟨?_, ?_, ?_⟩
    · simp only [mysqldb.coerceValue]
      rw [if_pos (by decide)]
    · simp only [mysqldb.coerceValue]
      rw [if_neg (by decide), if_pos (by decide)]
    · simp only [mysqldb.coerceValue]
      rw [if_neg (by decide), if_neg (by decide), if_pos (by decide)]
      rfl

/-- C1 witness: the theorem applied to concrete declared types and cells,
with the coercions evaluated, and `ScanRows` applied to a concrete one-row
cursor of an "INT" column. -/
theorem claim_C1_witness :
    mysqldb.coerceValue [("c", "INT")] "c" (strBytes "42") = .vInt 42 ∧
    mysqldb.coerceValue [("c", "DECIMAL")] "c" (strBytes "1.5") = .vFloat (3 / 2 : ℚ) ∧
    mysqldb.coerceValue [("c", "BLOB")] "c" [0, 255] = .vBytes [0, 255] ∧
    mysqldb.coerceValue [("c", "VARCHAR")] "c" (strBytes "hi") =
      .vString (strBytes "hi") ∧
    mysqldb.ScanRows ⟨.ok [("a", "INT")], .ok ["a"], [⟨none, [strBytes "7"]⟩]⟩ =
      ([[("a", mysqldb.MyValue.vInt 7)]], none) := by
  have h3 := claim_C1_mysql_type_coercion.2.2.1
  refine ⟨?_, ?_, ?_, ?_, ?_⟩
  · rw [(h3 [("c", "INT")] "c" (strBytes "42")).1 (by decide)]
    decide
  · rw [(h3 [("c", "DECIMAL")] "c" (strBytes "1.5")).2.1 (by decide)]
    have : system.ConvertToFloat (strBytes "1.5") = (3 / 2 : ℚ) := by
      simp [system.ConvertToFloat, strBytes, system.digitsToNat, system.isDigitByte]
      norm_num
    rw [this]
  · rw [(h3 [("c", "BLOB")] "c" [0, 255]).2.2.1 (by decide)]
    rfl
  · rw [(h3 [("c", "VARCHAR")] "c" (strBytes "hi")).2.2.2.2
      ⟨by decide, by decide, by decide, by decide⟩]
  · have h1 := claim_C1_mysql_type_coercion.1
      ⟨.ok [("a", "INT")], .ok ["a"], [⟨none, [strBytes "7"]⟩]⟩ ["a"] rfl
    rw [h1]
    decide

/-- Decimal renderings consist of ASCII digits. -/
theorem natDec_digits (n : Nat) : ∀ b ∈ file.natDec n, 48 ≤ b ∧ b ≤ 57 := by
  induction n using Nat.strong_induction_on with
  | _ n ih =>
    unfold file.natDec
    split
    · intro b hb
      simp at hb
      omega
    · intro b hb
      rw [List.mem_append] at hb
      rcases hb with hb | hb
      · exact ih (n / 10) (Nat.div_lt_self (by omega) (by omega)) b hb
      · simp at hb
        have : n % 10 < 10 := Nat.mod_lt _ (by omega)
        omega

theorem pad2_digits (n : Nat) : ∀ b ∈ file.pad2 n, 48 ≤ b ∧ b ≤ 57 := by
  unfold file.pad2
  split
  · intro b hb
    simp at hb
    rcases hb with rfl | rfl <;> omega
  · exact natDec_digits n

theorem intDec_bytes (i : Int) : ∀ b ∈ file.intDec i, b = 45 ∨ (48 ≤ b ∧ b ≤ 57) := by
  unfold file.intDec
  split
  · intro b hb
    rcases List.mem_cons.mp hb with rfl | hb
    · left; rfl
    · right; exact natDec_digits _ b hb
  · intro b hb
    right
    exact natDec_digits _ b hb

/-- The replacer pass keeps every byte below 256. -/
theorem logEscape1_bytes (msg : List Nat) (h : ∀ b ∈ msg, b < 256) :
    ∀ b ∈ file.logEscape1 msg, b < 256 := by
  induction msg with
  | nil => intro b hb; simp [file.logEscape1] at hb
  | cons a rest ih =>
    intro b hb
    rw [file.logEscape1, List.mem_append] at hb
    rcases hb with hb | hb
    · have ha : a < 256 := h a (List.mem_cons_self _ _)
      split at hb <;> try (split at hb) <;> try (split at hb) <;> try (split at hb)
      all_goals simp_all
      all_goals omega
    · exact ih (fun b hb => h b (List.mem_cons_of_mem _ hb)) b hb

theorem hexUpper_printable (n : Nat) (h : n ≤ 15) :
    48 ≤ file.hexUpper n ∧ file.hexUpper n ≤ 70 := by
  unfold file.hexUpper
  split <;> omega

/-- The byte loop leaves only printable ASCII in the message field. -/
theorem logEscape2_printable (l : List Nat) (h : ∀ b ∈ l, b < 256) :
    ∀ b ∈ file.logEscape2 l, 32 ≤ b ∧ b < 127 := by
  induction l with
  | nil => intro b hb; simp [file.logEscape2] at hb
  | cons a rest ih =>
    intro b hb
    have ha : a < 256 := h a (List.mem_cons_self _ _)
    rw [file.logEscape2, List.mem_append] at hb
    rcases hb with hb | hb
    · split at hb
      · simp at hb
        omega
      · have h1 : a / 16 ≤ 15 := by omega
        have h2 : a % 16 ≤ 15 := by omega
        have e1 := hexUpper_printable _ h1
        have e2 := hexUpper_printable _ h2
        simp at hb
        rcases hb with rfl | rfl | rfl | rfl <;> omega
    · exact ih (fun b hb => h b (List.mem_cons_of_mem _ hb)) b hb

theorem mem_trimRightSlash {s : String} {c : Char}
    (h : c ∈ (file.trimRightSlash s).data) : c ∈ s.data := by
  simp only [file.trimRightSlash] at h
  rw [List.mem_reverse] at h
  have := (List.dropWhile_sublist (l := s.data.reverse) (p := fun c => c = '/')).mem h
  rwa [List.mem_reverse] at this

theorem mem_split_fst {s : String} {c : Char}
    (h : c ∈ (file.goFilepathSplit s).1.data) : c ∈ s.data := by
  simp only [file.goFilepathSplit] at h
  rw [List.mem_reverse] at h
  have := (List.dropWhile_sublist (l := s.data.reverse) (p := fun c => c ≠ '/')).mem h
  rwa [List.mem_reverse] at this

theorem mem_split_snd {s : String} {c : Char}
    (h : c ∈ (file.goFilepathSplit s).2.data) : c ∈ s.data := by
  simp only [file.goFilepathSplit] at h
  rw [List.mem_reverse] at h
  have := (List.takeWhile_sublist (l := s.data.reverse) (p := fun c => c ≠ '/')).mem h
  rwa [List.mem_reverse] at this

theorem mem_logCallerParts_fst {s : String} {ok : Bool} {c : Char}
    (h : c ∈ (file.logCallerParts s ok).1.data) : c ∈ s.data := by
  unfold file.logCallerParts at h
  split at h
  · exact mem_split_fst (mem_trimRightSlash h)
  · simp at h

theorem mem_logCallerParts_snd {s : String} {ok : Bool} {c : Char}
    (h : c ∈ (file.logCallerParts s ok).2.data) : c ∈ s.data := by
  unfold file.logCallerParts at h
  split at h
  · exact mem_split_snd h
  · simp at h

/-- C9: every `Log` call appends exactly one line of seven tab-separated
fields terminated by a single newline (provided the caller's source path —
a file-system path — contains no tab or newline): the line has exactly six
tabs and one newline, which is its last byte; the message field holds only
printable ASCII (so no raw tab, newline, carriage return, or other
non-printable byte), the four special characters becoming two-character
escapes and every other non-printable byte a `\xNN` hex escape; and when
the log file does not yet exist the `utm\tcymd\thms\t...` header line is
written before the entry. -/
theorem claim_C9_log_format :
    ∀ (utm : Int) (t : file.GoTime) (callerFile : String) (callerLine : Nat)
      (callerOk : Bool) (message : List Nat),
      (∀ b ∈ message, b < 256) →
      (∀ c ∈ callerFile.data, c.toNat ≠ 9 ∧ c.toNat ≠ 10) →
      ((file.logFields utm t callerFile callerLine callerOk message).length = 7 ∧
        file.Log true utm t callerFile callerLine callerOk message =
          List.intercalate [9] (file.logFields utm t callerFile callerLine callerOk message)
            ++ [10]) ∧
      (file.Log true utm t callerFile callerLine callerOk message).count 9 = 6 ∧
      (file.Log true utm t callerFile callerLine callerOk message).count 10 = 1 ∧
      (file.Log true utm t callerFile callerLine callerOk message).getLast? = some 10 ∧
      (∀ b ∈ file.logEscape2 (file.logEscape1 message), 32 ≤ b ∧ b < 127) ∧
      file.Log false utm t callerFile callerLine callerOk message =
        file.logHeader ++ file.Log true utm t callerFile callerLine callerOk message ∧
      (file.logEscape1 [92] = [92, 92] ∧ file.logEscape1 [9] = [92, 116] ∧
        file.logEscape1 [10] = [92, 110] ∧ file.logEscape1 [13] = [92, 114] ∧
        file.logEscape2 [7] = [92, 120, 48, 55] ∧ file.logEscape2 [65] = [65]) := by
  intro utm t callerFile callerLine callerOk message hmsg hcf
  have hprint : ∀ b ∈ file.logEscape2 (file.logEscape1 message), 32 ≤ b ∧ b < 127 :=
    logEscape2_printable _ (logEscape1_bytes _ hmsg)
  have hdig : ∀ (l : List Nat), (∀ b ∈ l, 48 ≤ b ∧ b ≤ 57) →
      ∀ x ∈ [(9 : Nat), 10], l.count x = 0 := by
    intro l hl x hx
    refine List.count_eq_zero.mpr (fun hmem => ?_)
    have := hl _ hmem
    simp at hx
    rcases hx with rfl | rfl <;> omega
  have c1 : ∀ x ∈ [(9 : Nat), 10], (file.intDec utm).count x = 0 := by
    intro x hx
    refine List.count_eq_zero.mpr (fun hmem => ?_)
    have h45 := intDec_bytes utm _ hmem
    simp at hx
    rcases hx with rfl | rfl <;> rcases h45 with h | h <;> omega
  have c4 : ∀ x ∈ [(9 : Nat), 10],
      (strBytes (file.logCallerParts callerFile callerOk).1).count x = 0 := by
    intro x hx
    refine List.count_eq_zero.mpr (fun hmem => ?_)
    simp only [strBytes, List.mem_map] at hmem
    obtain ⟨c, hc, rfl⟩ := hmem
    have := hcf c (mem_logCallerParts_fst hc)
    simp at hx
    rcases hx with h | h
    · exact this.1 h
    · exact this.2 h
  have c5 : ∀ x ∈ [(9 : Nat), 10],
      (strBytes (file.logCallerParts callerFile callerOk).2).count x = 0 := by
    intro x hx
    refine List.count_eq_zero.mpr (fun hmem => ?_)
    simp only [strBytes, List.mem_map] at hmem
    obtain ⟨c, hc, rfl⟩ := hmem
    have := hcf c (mem_logCallerParts_snd hc)
    simp at hx
    rcases hx with h | h
    · exact this.1 h
    · exact this.2 h
  have c6 : ∀ x ∈ [(9 : Nat), 10], (file.natDec callerLine).count x = 0 :=
    fun x hx => hdig _ (natDec_digits _) x hx
  have c7 : ∀ x ∈ [(9 : Nat), 10],
      (file.logEscape2 (file.logEscape1 message)).count x = 0 := by
    intro x hx
    refine List.count_eq_zero.mpr (fun hmem => ?_)
    have := hprint _ hmem
    simp at hx
    rcases hx with rfl | rfl <;> omega
  have hform : file.Log true utm t callerFile callerLine callerOk message =
      file.intDec utm ++ 9 ::
        ((file.natDec t.year ++ file.pad2 t.month ++ file.pad2 t.day) ++ 9 ::
          ((file.pad2 t.hour ++ file.pad2 t.minute ++ file.pad2 t.sec) ++ 9 ::
            (strBytes (file.logCallerParts callerFile callerOk).1 ++ 9 ::
              (strBytes (file.logCallerParts callerFile callerOk).2 ++ 9 ::
                (file.natDec callerLine ++ 9 ::
                  file.logEscape2 (file.logEscape1 message)))))) ++ [10] := by
    simp [file.Log, file.logFields, List.intercalate, List.intersperse]
  refine ⟨⟨rfl, rfl⟩, ?_, ?_, ?_, hprint, ?_, by decide⟩
  · rw [hform]
    simp only [List.count_append, List.count_cons, List.count_nil]
    rw [c1 9 (by simp),
      hdig _ (natDec_digits t.year) 9 (by simp),
      hdig _ (pad2_digits t.month) 9 (by simp),
      hdig _ (pad2_digits t.day) 9 (by simp),
      hdig _ (pad2_digits t.hour) 9 (by simp),
      hdig _ (pad2_digits t.minute) 9 (by simp),
      hdig _ (pad2_digits t.sec) 9 (by simp),
      c4 9 (by simp), c5 9 (by simp), c6 9 (by simp), c7 9 (by simp)]
    simp
  · rw [hform]
    simp only [List.count_append, List.count_cons, List.count_nil]
    rw [c1 10 (by simp),
      hdig _ (natDec_digits t.year) 10 (by simp),
      hdig _ (pad2_digits t.month) 10 (by simp),
      hdig _ (pad2_digits t.day) 10 (by simp),
      hdig _ (pad2_digits t.hour) 10 (by simp),
      hdig _ (pad2_digits t.minute) 10 (by simp),
      hdig _ (pad2_digits t.sec) 10 (by simp),
      c4 10 (by simp), c5 10 (by simp), c6 10 (by simp), c7 10 (by simp)]
    simp
  · rw [hform]
    rw [List.getLast?_concat]
  · simp [file.Log]

/-- C9 witness: the theorem applied to a concrete log call whose message
contains a tab and a control byte. -/
theorem claim_C9_witness :
    (file.Log true 1700000000000000 ⟨2024, 1, 2, 3, 4, 5⟩ "/app/main.go" 42 true
      (strBytes "a\tb" ++ [7])).count 9 = 6 ∧
    (file.Log true 1700000000000000 ⟨2024, 1, 2, 3, 4, 5⟩ "/app/main.go" 42 true
      (strBytes "a\tb" ++ [7])).count 10 = 1 := by
  have h := claim_C9_log_format 1700000000000000 ⟨2024, 1, 2, 3, 4, 5⟩ "/app/main.go" 42 true
    (strBytes "a\tb" ++ [7]) (by decide) (by decide)
  exact ⟨h.2.1, h.2.2.1⟩

/-- C10: whenever the underlying codec reports an error, `Base64_decode`,
`Base64url_decode` and `Base91_decode` return the empty string together
with that (non-nil) error — never a partially decoded prefix — and
`JSON_decode` likewise returns a nil value together with its error. -/
theorem claim_C10_decode_error_empty :
    (∀ (s : List Nat) (e : GoError),
      conv.b64decodeString s = .error e → conv.Base64_decode s = ([], some e)) ∧
    (∀ (s : List Nat) (e : GoError),
      conv.b64decodeString (conv.b64pad (conv.b64urlUnsub s)) = .error e →
      conv.Base64url_decode s = ([], some e)) ∧
    (∀ (s : List Nat) (u : Bool) (e : GoError),
      conv.b91decLoop (if u then conv.b91unescape s else s) 0 0 none = .error e →
      conv.Base91_decode s u = ([], some e)) ∧
    (∀ (unmarshal : List Nat → Except GoError conv.JSONValue) (s : List Nat) (e : GoError),
      unmarshal s = .error e → conv.JSON_decode unmarshal s = (none, some e)) := by
  refine ⟨?_, ?_, ?_, ?_⟩
  · intro s e h
    by_cases hs : s = []
    · subst hs
      rw [show conv.b64decodeString [] = .ok [] from rfl] at h
      exact absurd h (by simp)
    · simp [conv.Base64_decode, hs, h]
  · intro s e h
    by_cases hs : s = []
    · subst hs
      rw [show conv.b64pad (conv.b64urlUnsub []) = [] from rfl,
        show conv.b64decodeString [] = .ok [] from rfl] at h
      exact absurd h (by simp)
    · simp [conv.Base64url_decode, conv.Base64_decode, hs, h]
      intro hpad
      rw [hpad] at h
      rw [show conv.b64decodeString [] = .ok [] from rfl] at h
      exact absurd h (by simp)
  · intro s u e h
    by_cases hs : s = []
    · subst hs
      rcases u <;> simp [conv.b91unescape, conv.b91decLoop] at h
    · simp [conv.Base91_decode, hs, h]
  · intro unmarshal s e h
    simp [conv.JSON_decode, h]

/-- C10 witness: concrete corrupt inputs for each decoder. -/
theorem claim_C10_witness :
    conv.Base64_decode (strBytes "!!!!") = ([], some "illegal base64 data") ∧
    conv.Base64url_decode (strBytes "****") = ([], some "illegal base64 data") ∧
    conv.Base91_decode (strBytes " ") false = ([], some "illegal base91 data") ∧
    conv.Base91_decode (strBytes "ab cd") true = ([], some "illegal base91 data") ∧
    conv.JSON_decode (fun _ => .error "unexpected end of JSON input") (strBytes "\x7b")
      = (none, some "unexpected end of JSON input") :=
  ⟨claim_C10_decode_error_empty.1 _ _ (by decide),
   claim_C10_decode_error_empty.2.1 _ _ (by decide),
   claim_C10_decode_error_empty.2.2.1 _ false _ (by decide),
   claim_C10_decode_error_empty.2.2.1 _ true _ (by decide),
   claim_C10_decode_error_empty.2.2.2 _ _ _ rfl⟩


theorem b64dec_chr : ∀ n : Fin 64, conv.b64dec (conv.b64chr n.val) = some n.val := by decide

theorem b64chr_ne : ∀ n : Fin 64,
    conv.b64chr n.val ≠ 61 ∧ conv.b64chr n.val ≠ 13 ∧ conv.b64chr n.val ≠ 10 := by decide

theorem b64_quads_enc : ∀ (n : Nat) (s : List Nat), s.length ≤ n → (∀ b ∈ s, b < 256) →
    conv.b64decodeQuads (conv.b64encodeBytes s) = .ok s := by
  intro n
  induction n with
  | zero =>
    intro s hlen _
    have : s = [] := List.eq_nil_of_length_eq_zero (Nat.le_zero.mp hlen)
    subst this
    rfl
  | succ n ih =>
    intro s hlen hb
    match s with
    | [] => rfl
    | [b1] =>
      have h1 : b1 < 256 := hb b1 (by simp)
      have e1 := b64dec_chr ⟨b1 / 4, by omega⟩
      have e2 := b64dec_chr ⟨b1 % 4 * 16, by omega⟩
      simp only [conv.b64encodeBytes, conv.b64decodeQuads, e1, e2]
      simp only [reduceIte, and_self, if_true]
      have : b1 / 4 * 4 + b1 % 4 * 16 / 16 = b1 := by omega
      rw [this]
    | [b1, b2] =>
      have h1 : b1 < 256 := hb b1 (by simp)
      have h2 : b2 < 256 := hb b2 (by simp)
      have e1 := b64dec_chr ⟨b1 / 4, by omega⟩
      have e2 := b64dec_chr ⟨b1 % 4 * 16 + b2 / 16, by omega⟩
      have e3 := b64dec_chr ⟨b2 % 16 * 4, by omega⟩
      have ne3 := (b64chr_ne ⟨b2 % 16 * 4, by omega⟩).1
      simp only [conv.b64encodeBytes, conv.b64decodeQuads, e1, e2, e3, if_neg ne3]
      simp only [reduceIte, and_self, if_true]
      have r1 : b1 / 4 * 4 + (b1 % 4 * 16 + b2 / 16) / 16 = b1 := by omega
      have r2 : (b1 % 4 * 16 + b2 / 16) % 16 * 16 + b2 % 16 * 4 / 4 = b2 := by omega
      rw [r1, r2]
    | b1 :: b2 :: b3 :: rest =>
      have h1 : b1 < 256 := hb b1 (by simp)
      have h2 : b2 < 256 := hb b2 (by simp)
      have h3 : b3 < 256 := hb b3 (by simp)
      have e1 := b64dec_chr ⟨b1 / 4, by omega⟩
      have e2 := b64dec_chr ⟨b1 % 4 * 16 + b2 / 16, by omega⟩
      have e3 := b64dec_chr ⟨b2 % 16 * 4 + b3 / 64, by omega⟩
      have e4 := b64dec_chr ⟨b3 % 64, by omega⟩
      have ne3 := (b64chr_ne ⟨b2 % 16 * 4 + b3 / 64, by omega⟩).1
      have ne4 := (b64chr_ne ⟨b3 % 64, by omega⟩).1
      have hrest : conv.b64decodeQuads (conv.b64encodeBytes rest) = .ok rest := by
        refine ih rest (by simp at hlen; omega) (fun b hbm => hb b (by simp [hbm]))
      simp only [conv.b64encodeBytes, conv.b64decodeQuads, e1, e2, e3, e4,
        if_neg ne3, if_neg ne4, hrest]
      have r1 : b1 / 4 * 4 + (b1 % 4 * 16 + b2 / 16) / 16 = b1 := by omega
      have r2 : (b1 % 4 * 16 + b2 / 16) % 16 * 16 + (b2 % 16 * 4 + b3 / 64) / 4 = b2 := by omega
      have r3 : (b2 % 16 * 4 + b3 / 64) % 4 * 64 + b3 % 64 = b3 := by omega
      rw [r1, r2, r3]

theorem b64urlSub_cons (c : Nat) (l : List Nat) :
    conv.b64urlSub (c :: l) = conv.b64urlSub [c] ++ conv.b64urlSub l := by
  simp [conv.b64urlSub]

theorem b64urlUnsub_append (a b : List Nat) :
    conv.b64urlUnsub (a ++ b) = conv.b64urlUnsub a ++ conv.b64urlUnsub b := by
  induction a with
  | nil => rfl
  | cons c a ih => simp [conv.b64urlUnsub, ih]

theorem b64url_char_facts : ∀ n : Fin 64,
    (conv.b64urlSub [conv.b64chr n.val]).length = 1 ∧
    conv.b64urlUnsub (conv.b64urlSub [conv.b64chr n.val]) = [conv.b64chr n.val] := by decide

theorem b64urlSub_alpha_len (l : List Nat)
    (h : ∀ c ∈ l, ∃ m : Fin 64, c = conv.b64chr m.val) :
    (conv.b64urlSub l).length = l.length := by
  induction l with
  | nil => rfl
  | cons c l ih =>
    obtain ⟨m, rfl⟩ := h c (by simp)
    rw [b64urlSub_cons, List.length_append, (b64url_char_facts m).1,
      ih (fun c hc => h c (by simp [hc]))]
    simp
    omega

theorem b64url_unsub_sub_alpha (l : List Nat)
    (h : ∀ c ∈ l, ∃ m : Fin 64, c = conv.b64chr m.val) :
    conv.b64urlUnsub (conv.b64urlSub l) = l := by
  induction l with
  | nil => rfl
  | cons c l ih =>
    obtain ⟨m, rfl⟩ := h c (by simp)
    rw [b64urlSub_cons, b64urlUnsub_append, (b64url_char_facts m).2,
      ih (fun c hc => h c (by simp [hc]))]
    rfl

theorem b64enc_shape : ∀ (n : Nat) (s : List Nat), s.length ≤ n → s ≠ [] →
    (∀ b ∈ s, b < 256) →
    ∃ body : List Nat,
      (∀ c ∈ body, ∃ m : Fin 64, c = conv.b64chr m.val) ∧ body ≠ [] ∧
      ((conv.b64encodeBytes s = body ∧ body.length % 4 = 0) ∨
       (conv.b64encodeBytes s = body ++ [61] ∧ body.length % 4 = 3) ∨
       (conv.b64encodeBytes s = body ++ [61, 61] ∧ body.length % 4 = 2)) := by
  intro n
  induction n with
  | zero =>
    intro s hlen hne _
    exact absurd (List.eq_nil_of_length_eq_zero (Nat.le_zero.mp hlen)) hne
  | succ n ih =>
    intro s hlen hne hb
    match s with
    | [b1] =>
      have h1 : b1 < 256 := hb b1 (by simp)
      refine ⟨[conv.b64chr (b1 / 4), conv.b64chr (b1 % 4 * 16)], ?_, by simp, ?_⟩
      · intro c hc
        simp at hc
        rcases hc with rfl | rfl
        · exact ⟨⟨b1 / 4, by omega⟩, rfl⟩
        · exact ⟨⟨b1 % 4 * 16, by omega⟩, rfl⟩
      · right; right
        exact ⟨rfl, rfl⟩
    | [b1, b2] =>
      have h1 : b1 < 256 := hb b1 (by simp)
      have h2 : b2 < 256 := hb b2 (by simp)
      refine ⟨[conv.b64chr (b1 / 4), conv.b64chr (b1 % 4 * 16 + b2 / 16),
        conv.b64chr (b2 % 16 * 4)], ?_, by simp, ?_⟩
      · intro c hc
        simp at hc
        rcases hc with rfl | rfl | rfl
        · exact ⟨⟨b1 / 4, by omega⟩, rfl⟩
        · exact ⟨⟨b1 % 4 * 16 + b2 / 16, by omega⟩, rfl⟩
        · exact ⟨⟨b2 % 16 * 4, by omega⟩, rfl⟩
      · right; left
        exact ⟨rfl, rfl⟩
    | b1 :: b2 :: b3 :: rest =>
      have h1 : b1 < 256 := hb b1 (by simp)
      have h2 : b2 < 256 := hb b2 (by simp)
      have h3 : b3 < 256 := hb b3 (by simp)
      have quadAlpha : ∀ c ∈ [conv.b64chr (b1 / 4), conv.b64chr (b1 % 4 * 16 + b2 / 16),
          conv.b64chr (b2 % 16 * 4 + b3 / 64), conv.b64chr (b3 % 64)],
          ∃ m : Fin 64, c = conv.b64chr m.val := by
        intro c hc
        simp at hc
        rcases hc with rfl | rfl | rfl | rfl
        · exact ⟨⟨b1 / 4, by omega⟩, rfl⟩
        · exact ⟨⟨b1 % 4 * 16 + b2 / 16, by omega⟩, rfl⟩
        · exact ⟨⟨b2 % 16 * 4 + b3 / 64, by omega⟩, rfl⟩
        · exact ⟨⟨b3 % 64, by omega⟩, rfl⟩
      by_cases hrest : rest = []
      · subst hrest
        refine ⟨[conv.b64chr (b1 / 4), conv.b64chr (b1 % 4 * 16 + b2 / 16),
          conv.b64chr (b2 % 16 * 4 + b3 / 64), conv.b64chr (b3 % 64)], quadAlpha, by simp, ?_⟩
        left
        exact ⟨rfl, by simp⟩
      · obtain ⟨body, halpha, hbne, hcases⟩ :=
          ih rest (by simp at hlen; omega) hrest (fun b hbm => hb b (by simp [hbm]))
        refine ⟨conv.b64chr (b1 / 4) :: conv.b64chr (b1 % 4 * 16 + b2 / 16) ::
          conv.b64chr (b2 % 16 * 4 + b3 / 64) :: conv.b64chr (b3 % 64) :: body, ?_, by simp, ?_⟩
        · intro c hc
          simp at hc
          rcases hc with rfl | rfl | rfl | rfl | hc
          · exact ⟨⟨b1 / 4, by omega⟩, rfl⟩
          · exact ⟨⟨b1 % 4 * 16 + b2 / 16, by omega⟩, rfl⟩
          · exact ⟨⟨b2 % 16 * 4 + b3 / 64, by omega⟩, rfl⟩
          · exact ⟨⟨b3 % 64, by omega⟩, rfl⟩
          · exact halpha c hc
        · have henc : conv.b64encodeBytes (b1 :: b2 :: b3 :: rest) =
            conv.b64chr (b1 / 4) :: conv.b64chr (b1 % 4 * 16 + b2 / 16) ::
              conv.b64chr (b2 % 16 * 4 + b3 / 64) :: conv.b64chr (b3 % 64) ::
                conv.b64encodeBytes rest := rfl
          rcases hcases with ⟨he, hm⟩ | ⟨he, hm⟩ | ⟨he, hm⟩
          · left
            constructor
            · rw [henc, he]
            · simp at hm ⊢
              omega
          · right; left
            constructor
            · rw [henc, he]
              rfl
            · simp at hm ⊢
              omega
          · right; right
            constructor
            · rw [henc, he]
              rfl
            · simp at hm ⊢
              omega

theorem b64urlSub_append (a b : List Nat) :
    conv.b64urlSub (a ++ b) = conv.b64urlSub a ++ conv.b64urlSub b := by
  induction a with
  | nil => rfl
  | cons c a ih => simp [conv.b64urlSub, ih]

theorem b64url_roundtrip (s : List Nat) (hne : s ≠ []) (hb : ∀ b ∈ s, b < 256) :
    conv.Base64url_decode (conv.Base64url_encode s) = (s, none) := by
  obtain ⟨body, halpha, hbne, hcases⟩ := b64enc_shape s.length s le_rfl hne hb
  have hencw : conv.Base64url_encode s = conv.b64urlSub (conv.b64encodeBytes s) := by
    simp [conv.Base64url_encode, conv.Base64_encode, hne]
  have hsub : conv.b64urlSub (conv.b64encodeBytes s) = conv.b64urlSub body := by
    rcases hcases with ⟨he, _⟩ | ⟨he, _⟩ | ⟨he, _⟩
    · rw [he]
    · rw [he, b64urlSub_append]
      simp [conv.b64urlSub]
    · rw [he, b64urlSub_append]
      simp [conv.b64urlSub]
  have hlen1 : (conv.b64urlSub body).length = body.length := b64urlSub_alpha_len body halpha
  have hsubne : conv.b64urlSub body ≠ [] := by
    intro h
    rw [h] at hlen1
    exact hbne (List.eq_nil_of_length_eq_zero hlen1.symm)
  have hunsub : conv.b64urlUnsub (conv.b64urlSub body) = body := b64url_unsub_sub_alpha body halpha
  have hpad : conv.b64pad body = conv.b64encodeBytes s := by
    rcases hcases with ⟨he, hm⟩ | ⟨he, hm⟩ | ⟨he, hm⟩ <;> simp [conv.b64pad, hm, he]
  have hencne : conv.b64encodeBytes s ≠ [] := by
    rcases hcases with ⟨he, _⟩ | ⟨he, _⟩ | ⟨he, _⟩ <;> rw [he] <;> simp [hbne]
  have hfilter : (conv.b64encodeBytes s).filter
      (fun b => decide (b ≠ 13) && decide (b ≠ 10)) = conv.b64encodeBytes s := by
    rw [List.filter_eq_self]
    intro a ha
    have : a ≠ 13 ∧ a ≠ 10 := by
      have halpha61 : a = 61 ∨ ∃ m : Fin 64, a = conv.b64chr m.val := by
        rcases hcases with ⟨he, _⟩ | ⟨he, _⟩ | ⟨he, _⟩ <;> rw [he] at ha
        · exact Or.inr (halpha a ha)
        · rcases List.mem_append.mp ha with ha | ha
          · exact Or.inr (halpha a ha)
          · simp at ha; exact Or.inl ha
        · rcases List.mem_append.mp ha with ha | ha
          · exact Or.inr (halpha a ha)
          · simp at ha
            rcases ha with rfl | rfl
            exact Or.inl rfl
      rcases halpha61 with rfl | ⟨m, rfl⟩
      · exact ⟨by omega, by omega⟩
      · exact (b64chr_ne m).2
    simp [this.1, this.2]
  rw [hencw, hsub]
  rw [show conv.Base64url_decode (conv.b64urlSub body) =
    conv.Base64_decode (conv.b64pad (conv.b64urlUnsub (conv.b64urlSub body))) by
      simp [conv.Base64url_decode, hsubne]]
  rw [hunsub, hpad]
  have hdecstr : conv.b64decodeString (conv.b64encodeBytes s) = .ok s := by
    unfold conv.b64decodeString
    rw [hfilter]
    exact b64_quads_enc s.length s le_rfl hb
  simp [conv.Base64_decode, hencne, hdecstr]


theorem lor_shl_eq_add (q b n : Nat) (hq : q < 2 ^ n) : q ||| (b <<< n) = q + b * 2 ^ n := by
  apply Nat.eq_of_testBit_eq
  intro i
  rw [Nat.testBit_or, Nat.testBit_shiftLeft]
  have hcomm : q + b * 2 ^ n = 2 ^ n * b + q := by ring
  rw [hcomm, Nat.testBit_mul_pow_two_add b hq i]
  by_cases hi : i < n
  · simp [hi, Nat.not_le.mpr hi]
  · have hq0 : q.testBit i = false := by
      apply Nat.testBit_eq_false_of_lt
      exact lt_of_lt_of_le hq (Nat.pow_le_pow_right (by omega) (by omega))
    simp [hi, hq0, Nat.le_of_not_lt hi]

theorem and8191_eq (a : Nat) : a &&& 8191 = a % 8192 := by
  have := Nat.and_pow_two_sub_one_eq_mod a 13
  norm_num at this
  exact this

theorem and16383_eq (a : Nat) : a &&& 16383 = a % 16384 := by
  have := Nat.and_pow_two_sub_one_eq_mod a 14
  norm_num at this
  exact this

theorem lowBytes_congr (k : Nat) : ∀ (a b : Nat), a % 2 ^ (8 * k) = b % 2 ^ (8 * k) →
    conv.lowBytes a k = conv.lowBytes b k := by
  induction k with
  | zero => intro a b _; rfl
  | succ k ih =>
    intro a b hab
    have h256 : (256 : Nat) ∣ 2 ^ (8 * (k + 1)) := by
      have : (256 : Nat) = 2 ^ 8 := by norm_num
      rw [this]
      exact pow_dvd_pow 2 (by omega)
    have hhead : a % 256 = b % 256 := by
      have ha := Nat.mod_mod_of_dvd a h256
      have hb := Nat.mod_mod_of_dvd b h256
      rw [← ha, ← hb, hab]
    have htail : a / 256 % 2 ^ (8 * k) = b / 256 % 2 ^ (8 * k) := by
      have key : ∀ x : Nat, x / 256 % 2 ^ (8 * k) = x % 2 ^ (8 * (k + 1)) / 256 := by
        intro x
        have h1 : (2 : Nat) ^ (8 * (k + 1)) = 256 * 2 ^ (8 * k) := by
          rw [show 8 * (k + 1) = 8 + 8 * k by ring, pow_add]
          norm_num
        rw [h1, Nat.mod_mul_right_div_self]
      rw [key a, key b, hab]
    rw [conv.lowBytes, conv.lowBytes, hhead, ih _ _ htail]

theorem lowBytes_append (j : Nat) : ∀ (k a : Nat),
    conv.lowBytes a (j + k) = conv.lowBytes a j ++ conv.lowBytes (a / 2 ^ (8 * j)) k := by
  induction j with
  | zero => intro k a; simp [conv.lowBytes]
  | succ j ih =>
    intro k a
    have hstep : conv.lowBytes a (j + 1 + k) = a % 256 :: conv.lowBytes (a / 256) (j + k) := by
      rw [show j + 1 + k = (j + k) + 1 by ring]
      rfl
    rw [hstep, ih k (a / 256), conv.lowBytes]
    have : a / 256 / 2 ^ (8 * j) = a / 2 ^ (8 * (j + 1)) := by
      rw [Nat.div_div_eq_div_mul]
      congr 1
      rw [show 8 * (j + 1) = 8 + 8 * j by ring, pow_add]
      norm_num
    rw [this]
    simp

theorem lowBytes_bytesToNat (data : List Nat) (h : ∀ b ∈ data, b < 256) :
    conv.lowBytes (conv.bytesToNat data) data.length = data := by
  induction data with
  | nil => rfl
  | cons b rest ih =>
    have hb : b < 256 := h b (by simp)
    have hhead : conv.bytesToNat (b :: rest) % 256 = b := by
      simp [conv.bytesToNat, Nat.add_mul_mod_self_left, Nat.mod_eq_of_lt hb]
    have htail : conv.bytesToNat (b :: rest) / 256 = conv.bytesToNat rest := by
      simp [conv.bytesToNat]
      omega
    simp only [List.length_cons, conv.lowBytes, hhead, htail]
    rw [ih (fun x hx => h x (by simp [hx]))]

theorem b91drain_spec : ∀ (n : Nat) (q : Nat),
    conv.b91drain q n = (conv.lowBytes q (n / 8), q / 2 ^ (8 * (n / 8)), n % 8) := by
  intro n
  induction n using Nat.strong_induction_on with
  | _ n ih =>
    intro q
    unfold conv.b91drain
    split
    · have h8 : 7 < n := by assumption
      rw [ih (n - 8) (by omega) (q >>> 8)]
      have hq8 : q >>> 8 = q / 256 := by
        rw [Nat.shiftRight_eq_div_pow]
      have hdiv : n / 8 = (n - 8) / 8 + 1 := by omega
      have hmod : n % 8 = (n - 8) % 8 := by omega
      rw [hq8, hdiv, hmod]
      have hlb : conv.lowBytes q ((n - 8) / 8 + 1) =
          q % 256 :: conv.lowBytes (q / 256) ((n - 8) / 8) := rfl
      rw [hlb]
      have hqq : q / 256 / 2 ^ (8 * ((n - 8) / 8)) = q / 2 ^ (8 * ((n - 8) / 8 + 1)) := by
        rw [Nat.div_div_eq_div_mul]
        congr 1
        rw [show 8 * ((n - 8) / 8 + 1) = 8 + 8 * ((n - 8) / 8) by ring, pow_add]
        norm_num
      rw [hqq]
    · have h8 : ¬ 7 < n := by assumption
      have hn : n / 8 = 0 := by omega
      have hm : n % 8 = n := by omega
      rw [hn, hm]
      simp [conv.lowBytes]

theorem b91dec_chr : ∀ d : Fin 91, conv.b91dec (conv.b91chr d.val) = some d.val := by decide

theorem b91chr_ne45 : ∀ d : Fin 91, conv.b91chr d.val ≠ 45 := by decide

theorem b91dec_pair (d1 d2 : Fin 91) (restOut : List Nat) (qd nd : Nat)
    (hqd : qd < 2 ^ nd) :
    conv.b91decLoop (conv.b91chr d1.val :: conv.b91chr d2.val :: restOut) qd nd none =
      (match conv.b91decLoop restOut
          ((qd + (d1.val + d2.val * 91) * 2 ^ nd) /
            2 ^ (8 * ((nd + (if (d1.val + d2.val * 91) % 8192 > 88 then 13 else 14)) / 8)))
          ((nd + (if (d1.val + d2.val * 91) % 8192 > 88 then 13 else 14)) % 8) none with
       | .error e => .error e
       | .ok tail =>
         .ok (conv.lowBytes (qd + (d1.val + d2.val * 91) * 2 ^ nd)
           ((nd + (if (d1.val + d2.val * 91) % 8192 > 88 then 13 else 14)) / 8) ++ tail)) := by
  simp only [conv.b91decLoop, b91dec_chr, lor_shl_eq_add qd (d1.val + d2.val * 91) nd hqd,
    and8191_eq, b91drain_spec]
  by_cases h : (d1.val + d2.val * 91) % 8192 > 88 <;> simp [h]

theorem b91sim_flush (q n qd nd : Nat) (hq : q < 2 ^ n) (hn : n ≤ 13)
    (hqd : qd < 2 ^ nd) (hnd : nd ≤ 7) (hmod : (n + nd) % 8 = 0) :
    conv.b91decLoop (conv.b91encLoop [] q n) qd nd none =
      .ok (conv.lowBytes (qd + q * 2 ^ nd) ((nd + n) / 8)) := by
  have hle13 : (2 : Nat) ^ n ≤ 2 ^ 13 := Nat.pow_le_pow_right (by omega) hn
  have h8192 : (2 : Nat) ^ 13 = 8192 := by norm_num
  have hq8191 : q ≤ 8191 := by omega
  rw [conv.b91encLoop]
  by_cases hn0 : n > 0
  · rw [if_pos hn0]
    by_cases h2 : n > 7 ∨ q > 90
    · rw [if_pos h2]
      have hpair := b91dec_pair ⟨q % 91, by omega⟩ ⟨q / 91, by omega⟩ [] qd nd hqd
      simp only [Fin.val_mk] at hpair
      have hv : q % 91 + q / 91 * 91 = q := by omega
      rw [hv] at hpair
      rw [Nat.mod_eq_of_lt (show q < 8192 by omega)] at hpair
      rw [hpair]
      simp only [conv.b91decLoop, List.append_nil]
      have h64 : n ≤ 6 → q < 64 := by
        intro h6
        have hle : (2 : Nat) ^ n ≤ 2 ^ 6 := Nat.pow_le_pow_right (by omega) h6
        have h26 : (2 : Nat) ^ 6 = 64 := by norm_num
        omega
      congr 2
      by_cases h88 : 88 < q
      · have hn7 : 7 ≤ n := by
          by_contra hlt
          have := h64 (by omega)
          omega
        rw [if_pos (by omega : q > 88)]
        omega
      · have hn8 : 8 ≤ n := by
          rcases h2 with h | h
          · omega
          · omega
        rw [if_neg (by omega : ¬ q > 88)]
        omega
    · rw [if_neg h2]
      push_neg at h2
      have hd := b91dec_chr ⟨q, by omega⟩
      simp only [Fin.val_mk] at hd
      rw [Nat.mod_eq_of_lt (show q < 91 by omega)]
      simp only [conv.b91decLoop, hd, lor_shl_eq_add qd q nd hqd]
      rw [show (nd + n) / 8 = 1 by omega]
      simp [conv.lowBytes]
  · rw [if_neg hn0]
    have hn' : n = 0 := by omega
    subst hn'
    have hq0 : q = 0 := by
      have : (2 : Nat) ^ 0 = 1 := rfl
      omega
    have hnd0 : nd = 0 := by omega
    subst hnd0
    have hqd0 : qd = 0 := by
      have : (2 : Nat) ^ 0 = 1 := rfl
      omega
    subst hq0
    subst hqd0
    simp [conv.b91decLoop, conv.lowBytes]

theorem b91sim_key (q b n v D qd nd w n' B : Nat)
    (hsplit : q + b * 2 ^ n = v + 2 ^ w * D) (hn' : n + 8 = w + n') :
    qd + (q + (b + 256 * B) * 2 ^ n) * 2 ^ nd =
      (qd + v * 2 ^ nd) +
        2 ^ (8 * ((nd + w) / 8)) *
          (D * 2 ^ ((nd + w) % 8) + B * (2 ^ ((nd + w) % 8) * 2 ^ n')) := by
  have h1 : (2 : Nat) ^ w * 2 ^ nd = 2 ^ (8 * ((nd + w) / 8)) * 2 ^ ((nd + w) % 8) := by
    rw [← pow_add, ← pow_add]
    congr 1
    omega
  have h2 : (256 : Nat) * 2 ^ n * 2 ^ nd =
      2 ^ (8 * ((nd + w) / 8)) * (2 ^ ((nd + w) % 8) * 2 ^ n') := by
    rw [show (256 : Nat) = 2 ^ 8 by norm_num, ← pow_add, ← pow_add, ← pow_add, ← pow_add]
    congr 1
    omega
  calc qd + (q + (b + 256 * B) * 2 ^ n) * 2 ^ nd
      = qd + ((q + b * 2 ^ n) + B * (256 * 2 ^ n)) * 2 ^ nd := by ring
    _ = qd + ((v + 2 ^ w * D) + B * (256 * 2 ^ n)) * 2 ^ nd := by rw [hsplit]
    _ = (qd + v * 2 ^ nd) + (D * (2 ^ w * 2 ^ nd) + B * (256 * 2 ^ n * 2 ^ nd)) := by ring
    _ = (qd + v * 2 ^ nd) +
          (D * (2 ^ (8 * ((nd + w) / 8)) * 2 ^ ((nd + w) % 8)) +
            B * (2 ^ (8 * ((nd + w) / 8)) * (2 ^ ((nd + w) % 8) * 2 ^ n'))) := by rw [h1, h2]
    _ = (qd + v * 2 ^ nd) +
          2 ^ (8 * ((nd + w) / 8)) *
            (D * 2 ^ ((nd + w) % 8) + B * (2 ^ ((nd + w) % 8) * 2 ^ n')) := by ring

theorem b91sim : ∀ (L : Nat) (data : List Nat), data.length ≤ L →
    ∀ (q n qd nd : Nat),
    (∀ x ∈ data, x < 256) → q < 2 ^ n → n ≤ 13 → qd < 2 ^ nd → nd ≤ 7 →
    (n + nd) % 8 = 0 →
    conv.b91decLoop (conv.b91encLoop data q n) qd nd none =
      .ok (conv.lowBytes (qd + (q + conv.bytesToNat data * 2 ^ n) * 2 ^ nd)
        ((nd + n + 8 * data.length) / 8)) := by
  intro L
  induction L with
  | zero =>
    intro data hlen q n qd nd hdata hq hn hqd hnd hmod
    have hdnil : data = [] := List.eq_nil_of_length_eq_zero (by omega)
    subst hdnil
    simpa [conv.bytesToNat] using b91sim_flush q n qd nd hq hn hqd hnd hmod
  | succ L IH =>
    intro data hlen q n qd nd hdata hq hn hqd hnd hmod
    cases data with
    | nil => simpa [conv.bytesToNat] using b91sim_flush q n qd nd hq hn hqd hnd hmod
    | cons b rest =>
      have hlen' : rest.length ≤ L := by
        simp only [List.length_cons] at hlen
        omega
      have hb : b < 256 := hdata b (List.mem_cons_self b rest)
      have hrest : ∀ x ∈ rest, x < 256 := fun x hx => hdata x (List.mem_cons_of_mem b hx)
      have hQ'lt : q + b * 2 ^ n < 2 ^ (n + 8) := by
        have hpow : (2 : Nat) ^ (n + 8) = 2 ^ n * 256 := by rw [pow_add]; norm_num
        rw [hpow]
        calc q + b * 2 ^ n < 2 ^ n + b * 2 ^ n := Nat.add_lt_add_right hq _
          _ ≤ 2 ^ n + 255 * 2 ^ n := Nat.add_le_add_left (Nat.mul_le_mul_right _ (by omega)) _
          _ = 2 ^ n * 256 := by ring
      simp only [conv.b91encLoop, conv.bytesToNat, List.length_cons,
        lor_shl_eq_add q b n hq, and8191_eq, and16383_eq, Nat.shiftRight_eq_div_pow]
      by_cases h13 : n + 8 > 13
      · rw [if_pos h13]
        have hn6 : 6 ≤ n := by omega
        set Q' := q + b * 2 ^ n with hQ'def
        set B := conv.bytesToNat rest with hBdef
        by_cases h88 : Q' % 8192 > 88
        · rw [if_pos h88]
          rw [show n + 8 - 13 = n - 5 by omega]
          set v := Q' % 8192 with hvdef
          have hv8191 : v ≤ 8191 := by omega
          have hpair := b91dec_pair ⟨v % 91, by omega⟩ ⟨v / 91, by omega⟩
            (conv.b91encLoop rest (Q' / 2 ^ 13) (n - 5)) qd nd hqd
          simp only [Fin.val_mk] at hpair
          rw [show v % 91 + v / 91 * 91 = v by omega] at hpair
          rw [Nat.mod_eq_of_lt (show v < 8192 by omega), if_pos (show v > 88 from h88)] at hpair
          rw [hpair]
          have h2_13 : (2 : Nat) ^ 13 = 8192 := by norm_num
          have hQpair : qd + v * 2 ^ nd < 2 ^ (nd + 13) := by
            calc qd + v * 2 ^ nd < 2 ^ nd + v * 2 ^ nd := Nat.add_lt_add_right hqd _
              _ ≤ 2 ^ nd + 8191 * 2 ^ nd := Nat.add_le_add_left (Nat.mul_le_mul_right _ hv8191) _
              _ = 2 ^ nd * 8192 := by ring
              _ = 2 ^ (nd + 13) := by rw [pow_add]; norm_num
          have hIH := IH rest hlen' (Q' / 2 ^ 13) (n - 5)
            ((qd + v * 2 ^ nd) / 2 ^ (8 * ((nd + 13) / 8))) ((nd + 13) % 8) hrest
            (by
              rw [Nat.div_lt_iff_lt_mul (by positivity)]
              calc Q' < 2 ^ (n + 8) := hQ'lt
                _ = 2 ^ (n - 5) * 2 ^ 13 := by rw [← pow_add]; congr 1; omega)
            (by omega)
            (by
              rw [Nat.div_lt_iff_lt_mul (by positivity)]
              calc qd + v * 2 ^ nd < 2 ^ (nd + 13) := hQpair
                _ = 2 ^ ((nd + 13) % 8) * 2 ^ (8 * ((nd + 13) / 8)) := by
                    rw [← pow_add]; congr 1; omega)
            (by omega)
            (by omega)
          rw [hIH]
          simp only []
          have hsplit : q + b * 2 ^ n = v + 2 ^ 13 * (Q' / 2 ^ 13) := by
            rw [h2_13, ← hQ'def]
            omega
          have hkey := b91sim_key q b n v (Q' / 2 ^ 13) qd nd 13 (n - 5) B hsplit (by omega)
          have hVmod : (qd + (q + (b + 256 * B) * 2 ^ n) * 2 ^ nd) % 2 ^ (8 * ((nd + 13) / 8)) =
              (qd + v * 2 ^ nd) % 2 ^ (8 * ((nd + 13) / 8)) := by
            rw [hkey]
            exact Nat.add_mul_mod_self_left _ _ _
          have hVdiv : (qd + (q + (b + 256 * B) * 2 ^ n) * 2 ^ nd) / 2 ^ (8 * ((nd + 13) / 8)) =
              (qd + v * 2 ^ nd) / 2 ^ (8 * ((nd + 13) / 8)) +
                ((Q' / 2 ^ 13) * 2 ^ ((nd + 13) % 8) + B * (2 ^ ((nd + 13) % 8) * 2 ^ (n - 5))) := by
            rw [hkey]
            exact Nat.add_mul_div_left _ _ (by positivity)
          rw [show (nd + n + 8 * (rest.length + 1)) / 8 =
            (nd + 13) / 8 + ((nd + 13) % 8 + (n - 5) + 8 * rest.length) / 8 by omega]
          rw [lowBytes_append ((nd + 13) / 8) (((nd + 13) % 8 + (n - 5) + 8 * rest.length) / 8)
            (qd + (q + (b + 256 * B) * 2 ^ n) * 2 ^ nd)]
          congr 1
          congr 1
          · exact (lowBytes_congr _ _ _ hVmod).symm
          · congr 1
            rw [hVdiv]
            ring
        · rw [if_neg h88]
          rw [show n + 8 - 14 = n - 6 by omega]
          set v2 := Q' % 16384 with hv2def
          have hv2b : v2 ≤ 8280 := by omega
          have hpair := b91dec_pair ⟨v2 % 91, by omega⟩ ⟨v2 / 91, by omega⟩
            (conv.b91encLoop rest (Q' / 2 ^ 14) (n - 6)) qd nd hqd
          simp only [Fin.val_mk] at hpair
          rw [show v2 % 91 + v2 / 91 * 91 = v2 by omega] at hpair
          rw [show v2 % 8192 = Q' % 8192 by omega, if_neg (show ¬ Q' % 8192 > 88 from h88)] at hpair
          rw [hpair]
          have h2_14 : (2 : Nat) ^ 14 = 16384 := by norm_num
          have hQpair : qd + v2 * 2 ^ nd < 2 ^ (nd + 14) := by
            calc qd + v2 * 2 ^ nd < 2 ^ nd + v2 * 2 ^ nd := Nat.add_lt_add_right hqd _
              _ ≤ 2 ^ nd + 16383 * 2 ^ nd := Nat.add_le_add_left (Nat.mul_le_mul_right _ (by omega)) _
              _ = 2 ^ nd * 16384 := by ring
              _ = 2 ^ (nd + 14) := by rw [pow_add]; norm_num
          have hIH := IH rest hlen' (Q' / 2 ^ 14) (n - 6)
            ((qd + v2 * 2 ^ nd) / 2 ^ (8 * ((nd + 14) / 8))) ((nd + 14) % 8) hrest
            (by
              rw [Nat.div_lt_iff_lt_mul (by positivity)]
              calc Q' < 2 ^ (n + 8) := hQ'lt
                _ = 2 ^ (n - 6) * 2 ^ 14 := by rw [← pow_add]; congr 1; omega)
            (by omega)
            (by
              rw [Nat.div_lt_iff_lt_mul (by positivity)]
              calc qd + v2 * 2 ^ nd < 2 ^ (nd + 14) := hQpair
                _ = 2 ^ ((nd + 14) % 8) * 2 ^ (8 * ((nd + 14) / 8)) := by
                    rw [← pow_add]; congr 1; omega)
            (by omega)
            (by omega)
          rw [hIH]
          simp only []
          have hsplit : q + b * 2 ^ n = v2 + 2 ^ 14 * (Q' / 2 ^ 14) := by
            rw [h2_14, ← hQ'def]
            omega
          have hkey := b91sim_key q b n v2 (Q' / 2 ^ 14) qd nd 14 (n - 6) B hsplit (by omega)
          have hVmod : (qd + (q + (b + 256 * B) * 2 ^ n) * 2 ^ nd) % 2 ^ (8 * ((nd + 14) / 8)) =
              (qd + v2 * 2 ^ nd) % 2 ^ (8 * ((nd + 14) / 8)) := by
            rw [hkey]
            exact Nat.add_mul_mod_self_left _ _ _
          have hVdiv : (qd + (q + (b + 256 * B) * 2 ^ n) * 2 ^ nd) / 2 ^ (8 * ((nd + 14) / 8)) =
              (qd + v2 * 2 ^ nd) / 2 ^ (8 * ((nd + 14) / 8)) +
                ((Q' / 2 ^ 14) * 2 ^ ((nd + 14) % 8) + B * (2 ^ ((nd + 14) % 8) * 2 ^ (n - 6))) := by
            rw [hkey]
            exact Nat.add_mul_div_left _ _ (by positivity)
          rw [show (nd + n + 8 * (rest.length + 1)) / 8 =
            (nd + 14) / 8 + ((nd + 14) % 8 + (n - 6) + 8 * rest.length) / 8 by omega]
          rw [lowBytes_append ((nd + 14) / 8) (((nd + 14) % 8 + (n - 6) + 8 * rest.length) / 8)
            (qd + (q + (b + 256 * B) * 2 ^ n) * 2 ^ nd)]
          congr 1
          congr 1
          · exact (lowBytes_congr _ _ _ hVmod).symm
          · congr 1
            rw [hVdiv]
            ring
      · rw [if_neg h13]
        have hIH := IH rest hlen' (q + b * 2 ^ n) (n + 8) qd nd hrest hQ'lt
          (by omega) hqd hnd (by omega)
        rw [hIH]
        have hval : q + b * 2 ^ n + conv.bytesToNat rest * 2 ^ (n + 8) =
            q + (b + 256 * conv.bytesToNat rest) * 2 ^ n := by
          rw [pow_add, show (2 : Nat) ^ 8 = 256 by norm_num]
          ring
        rw [hval]
        congr 2
        omega

theorem b91_roundtrip_raw (data : List Nat) (h : ∀ x ∈ data, x < 256) :
    conv.b91decLoop (conv.b91encLoop data 0 0) 0 0 none = .ok data := by
  have hsim := b91sim data.length data le_rfl 0 0 0 0 h (by norm_num) (by norm_num)
    (by norm_num) (by norm_num) (by norm_num)
  simpa [lowBytes_bytesToNat data h, Nat.mul_div_cancel_left] using hsim

theorem b91chr_ne45_all (x : Nat) : conv.b91chr x ≠ 45 := by
  by_cases hx : x < 91
  · exact b91chr_ne45 ⟨x, hx⟩
  · unfold conv.b91chr
    rw [List.getD_eq_default]
    · omega
    · rw [show conv.base91Chars.length = 91 from rfl]
      omega

theorem b91encLoop_ne45 : ∀ (data : List Nat) (q n : Nat),
    ∀ c ∈ conv.b91encLoop data q n, c ≠ 45 := by
  intro data
  induction data with
  | nil =>
    intro q n c hc
    simp only [conv.b91encLoop] at hc
    split at hc
    · split at hc
      · simp only [List.mem_cons, List.not_mem_nil, or_false] at hc
        rcases hc with h | h <;> (subst h; exact b91chr_ne45_all _)
      · simp only [List.mem_cons, List.not_mem_nil, or_false] at hc
        subst hc
        exact b91chr_ne45_all _
    · simp at hc
  | cons b rest IH =>
    intro q n c hc
    simp only [conv.b91encLoop] at hc
    split at hc
    · split at hc
      · simp only [List.mem_cons] at hc
        rcases hc with h | h | h
        · subst h; exact b91chr_ne45_all _
        · subst h; exact b91chr_ne45_all _
        · exact IH _ _ c h
      · simp only [List.mem_cons] at hc
        rcases hc with h | h | h
        · subst h; exact b91chr_ne45_all _
        · subst h; exact b91chr_ne45_all _
        · exact IH _ _ c h
    · exact IH _ _ c hc

theorem b91unescape_cons (b : Nat) (l : List Nat) (hb : b ≠ 45) :
    conv.b91unescape (b :: l) = b :: conv.b91unescape l := by
  rw [conv.b91unescape.eq_def]
  split
  · rename_i heq
    simp only [List.cons.injEq] at heq
    exact absurd heq.1 hb
  · rename_i heq
    simp only [List.cons.injEq] at heq
    exact absurd heq.1 hb
  · rename_i heq
    simp only [List.cons.injEq] at heq
    exact absurd heq.1 hb
  · rename_i heq
    simp only [List.cons.injEq] at heq
    rw [heq.1, heq.2]
  · rename_i heq
    simp at heq

theorem b91unescape_escape : ∀ (s : List Nat), (∀ c ∈ s, c ≠ 45) →
    conv.b91unescape (conv.b91escape s) = s := by
  intro s
  induction s with
  | nil => intro _; rfl
  | cons b rest IH =>
    intro h
    have hb : b ≠ 45 := h b (List.mem_cons_self b rest)
    have hr := IH (fun c hc => h c (List.mem_cons_of_mem b hc))
    by_cases h34 : b = 34
    · subst h34
      show conv.b91unescape (45 :: 113 :: conv.b91escape rest) = _
      rw [show ∀ l, conv.b91unescape (45 :: 113 :: l) = 34 :: conv.b91unescape l
        from fun l => rfl, hr]
    · by_cases h36 : b = 36
      · subst h36
        show conv.b91unescape (45 :: 100 :: conv.b91escape rest) = _
        rw [show ∀ l, conv.b91unescape (45 :: 100 :: l) = 36 :: conv.b91unescape l
          from fun l => rfl, hr]
      · by_cases h96 : b = 96
        · subst h96
          show conv.b91unescape (45 :: 103 :: conv.b91escape rest) = _
          rw [show ∀ l, conv.b91unescape (45 :: 103 :: l) = 96 :: conv.b91unescape l
            from fun l => rfl, hr]
        · have : conv.b91escape (b :: rest) = b :: conv.b91escape rest := by
            simp only [conv.b91escape, if_neg h34, if_neg h36, if_neg h96,
              List.cons_append, List.nil_append]
          rw [this, b91unescape_cons b _ hb, hr]

theorem b91encLoop_nonempty : ∀ (data : List Nat) (q n : Nat),
    0 < n ∨ data ≠ [] → conv.b91encLoop data q n ≠ [] := by
  intro data
  induction data with
  | nil =>
    intro q n h
    rcases h with h | h
    · simp only [conv.b91encLoop, if_pos (show n > 0 from h)]
      split <;> simp
    · simp at h
  | cons b rest IH =>
    intro q n _
    simp only [conv.b91encLoop]
    split
    · split <;> simp
    · exact IH _ _ (Or.inl (by omega))

theorem b91escape_nonempty (l : List Nat) (h : l ≠ []) : conv.b91escape l ≠ [] := by
  cases l with
  | nil => exact absurd rfl h
  | cons b rest =>
    simp only [conv.b91escape]
    split
    · simp
    · split
      · simp
      · split <;> simp

theorem b91_roundtrip (data : List Nat) (hne : data ≠ []) (h : ∀ x ∈ data, x < 256)
    (e : Bool) : conv.Base91_decode (conv.Base91_encode data e) e = (data, none) := by
  have hraw := b91_roundtrip_raw data h
  have hencne : conv.b91encLoop data 0 0 ≠ [] := b91encLoop_nonempty data 0 0 (Or.inr hne)
  unfold conv.Base91_encode conv.Base91_decode
  rw [if_neg hne]
  cases e with
  | false =>
    simp only [Bool.false_eq_true, if_false]
    rw [if_neg hencne, hraw]
  | true =>
    simp only [if_true]
    rw [if_neg (b91escape_nonempty _ hencne)]
    rw [b91unescape_escape _ (b91encLoop_ne45 data 0 0), hraw]

/-- C8: for every non-empty Go string `s` (byte values below 256),
`Base64url_decode (Base64url_encode s)` returns `s` with a nil error, and for
both escape-flag values `e`, `Base91_decode (Base91_encode s e) e` returns `s`
with a nil error. -/
theorem claim_C8_roundtrips (s : List Nat) (hne : s ≠ []) (hb : ∀ x ∈ s, x < 256) :
    conv.Base64url_decode (conv.Base64url_encode s) = (s, none) ∧
    ∀ e : Bool, conv.Base91_decode (conv.Base91_encode s e) e = (s, none) :=
  ⟨b64url_roundtrip s hne hb, fun e => b91_roundtrip s hne hb e⟩

/-- The round-trip claim applied at the concrete string "Man"
(bytes 77, 97, 110). -/
theorem claim_C8_witness :
    ([77, 97, 110] : List Nat) ≠ [] ∧ (∀ x ∈ ([77, 97, 110] : List Nat), x < 256) ∧
    (conv.Base64url_decode (conv.Base64url_encode [77, 97, 110]) = ([77, 97, 110], none) ∧
     ∀ e : Bool, conv.Base91_decode (conv.Base91_encode [77, 97, 110] e) e
       = ([77, 97, 110], none)) :=
  ⟨by decide, by decide, claim_C8_roundtrips [77, 97, 110] (by decide) (by decide)⟩
